import Mathlib

/-!
# Verification of the asynchronous job-queue subsystem

Shallow embedding of the job-queue/worker engine of the
Chinese-English translation service:

* `src/api/async_jobs.py`   — `JobRecord`, `AsyncJobManager`
  (`submit_job`, `_process_jobs`, `_execute_job`, `cleanup_old_jobs`)
* `src/api/service.py`      — `TranslationService`
  (`translate_with_qwen`, `translate`, `generate_questions`,
  `analyze_linguistic`, `_generate_initial_translation`,
  `_extract_translated_text`)
* `src/api/schemas.py`      — the five prompting schemas and
  `PromptingSchemaRegistry`
* `src/api/ollama_client.py` — `call_ollama` / `clean_thinking` /
  `safe_json_parse`, modelled through an environment of oracles
  (the model backend, the regex-based markup stripper and the
  strict/repair JSON decoders are external collaborators).

Python dictionaries holding JSON-like data are modelled by `Val` /
association lists; machine state of the manager by `MgrState`;
the cooperative worker loop by the step relation `Step`.
-/

/-- JSON-like Python value (contents of the dicts the services pass around). -/
inductive Val where
  | null : Val
  | bool (b : Bool) : Val
  | int (n : Int) : Val
  | str (s : String) : Val
  | list (xs : List Val) : Val
  | dict (d : List (String × Val)) : Val
deriving Repr

/-- Python dict with string keys. -/
def Dict := List (String × Val)

/-- `d.get(k)` returning `None` as `none`. -/
def Dict.get? (d : Dict) (k : String) : Option Val :=
  match d with
  | [] => none
  | (k', v) :: rest => if k' = k then some v else Dict.get? rest k

/-- `d.get(k, default)`. -/
def Dict.getD (d : Dict) (k : String) (v₀ : Val) : Val :=
  (Dict.get? d k).getD v₀

/-- Python truthiness of a value. -/
def Val.truthy : Val → Bool
  | .null => false
  | .bool b => b
  | .int n => n != 0
  | .str s => s ≠ ""
  | .list xs => !xs.isEmpty
  | .dict d => !d.isEmpty

/-- Truthiness of `d.get(k)` (missing key counts as `None`, i.e. falsy). -/
def Dict.getTruthy (d : Dict) (k : String) : Bool :=
  match Dict.get? d k with
  | some v => v.truthy
  | none => false

/-- Python `str(...)` of a value, as used when an exception message is built
from a dict entry.  In every reachable flow the entry is already a string. -/
def Val.pyStr : Val → String
  | .null => "None"
  | .bool true => "True"
  | .bool false => "False"
  | .int n => toString n
  | .str s => s
  | .list _ => "<list>"
  | .dict _ => "<dict>"

/-- `str(d.get(k, default))` for a string default: the message handed to
`raise Exception(...)` in `_execute_job`. -/
def Dict.getStrD (d : Dict) (k : String) (dflt : String) : String :=
  match Dict.get? d k with
  | some v => v.pyStr
  | none => dflt

/-- Python `d[k] = v`: overwrite in place if the key exists, else append. -/
def Dict.pySet (d : Dict) (k : String) (v : Val) : Dict :=
  match d with
  | [] => [(k, v)]
  | (k', v') :: rest =>
      if k' = k then (k, v) :: rest else (k', v') :: Dict.pySet rest k v

/-- Escape of a single character under `json.dumps` (the cases that occur
here). -/
def jsonEscapeChar (c : Char) : String :=
  if c = '\\' then "\\\\"
  else if c = '"' then "\\\""
  else if c = '\n' then "\\n"
  else if c = '\t' then "\\t"
  else if c = '\r' then "\\r"
  else String.singleton c

/-- String escaping and quoting of `json.dumps`. -/
def jsonQuote (s : String) : String :=
  "\"" ++ String.join (s.toList.map jsonEscapeChar) ++ "\""

mutual
/-- `json.dumps(v, ensure_ascii=False)` with the default separators. -/
def jsonDumps : Val → String
  | .null => "null"
  | .bool true => "true"
  | .bool false => "false"
  | .int n => toString n
  | .str s => jsonQuote s
  | .list xs => "[" ++ jsonDumpsList xs ++ "]"
  | .dict d => "\x7b" ++ jsonDumpsPairs d ++ "\x7d"

def jsonDumpsList : List Val → String
  | [] => ""
  | [x] => jsonDumps x
  | x :: y :: xs => jsonDumps x ++ ", " ++ jsonDumpsList (y :: xs)

def jsonDumpsPairs : List (String × Val) → String
  | [] => ""
  | [(k, v)] => jsonQuote k ++ ": " ++ jsonDumps v
  | (k, v) :: p :: ps => jsonQuote k ++ ": " ++ jsonDumps v ++ ", " ++ jsonDumpsPairs (p :: ps)
end

/-- Environment of external collaborators: the Ollama backend
(`call_ollama`, its connection check), the regex markup stripper
(`clean_thinking`), the strict (`json.loads`) and repair
(`json_repair.repair_json` followed by `json.loads`) JSON-object decoders,
and the local dictionary (`lookup_dictionary_entries`,
`format_dictionary_prompt`).  All are declared external collaborators by
the design: only their input/output behaviour reaches the worker engine. -/
structure Env where
  /-- `OllamaClient.check_connection()`. -/
  connected : Bool
  /-- `OllamaClient.call_ollama(prompt, ...)`: raw text or `None`. -/
  respond : String → Option String
  /-- `OllamaClient.clean_thinking`: strips think-tags and code fences. -/
  clean_thinking : String → String
  /-- Strict `json.loads` restricted to JSON objects (`None` = failure). -/
  json_loads : String → Option Dict
  /-- `json.loads(repair_json(text))` (`None` = repair unavailable/failed). -/
  repair_json : String → Option Dict
  /-- `lookup_dictionary_entries(text)` (JSON-serialisable entries). -/
  dict_entries : String → Val
  /-- `format_dictionary_prompt(entries)`. -/
  format_dict : Val → String

/-- `BasePromptingSchema._safe_json_parse` / `OllamaClient.safe_json_parse`:
strict parse first, then the lenient repair pass; empty input fails
immediately.  `none` = `({}, False)`. -/
def safe_json_parse (env : Env) (text : String) : Option Dict :=
  if text = "" then none
  else
    match env.json_loads text with
    | some d => some d
    | none => env.repair_json text

/-- Closed set of prompting schemas registered at module load
(`schemas.py`, bottom of file). -/
inductive SchemaId where
  | translate
  | simple
  | detailed
  | questions
  | linguistic
deriving Repr, DecidableEq

/-- Schema `name` class attribute. -/
def SchemaId.name : SchemaId → String
  | .translate => "translate"
  | .simple => "simple"
  | .detailed => "detailed"
  | .questions => "questions"
  | .linguistic => "linguistic"

/-- Prompt texts.  The model-prompt template catalog is out of scope for the
design (an external collaborator), so each multi-page system prompt is
modelled as a distinct marker constant; only its identity reaches the
worker engine through the `Env.respond` oracle. -/
def SchemaId.get_system_prompt (sid : SchemaId) : String :=
  "system-prompt:" ++ sid.name

/-- Stage-1 system prompt `TRANSLATION_ONLY_SYSTEM_PROMPT` (`service.py`),
likewise modelled as a marker constant. -/
def TRANSLATION_ONLY_SYSTEM_PROMPT : String := "system-prompt:translation-only"

/-- Stage-1 retry prompt `TRANSLATION_ONLY_FALLBACK_PROMPT` (`service.py`). -/
def TRANSLATION_ONLY_FALLBACK_PROMPT : String := "system-prompt:translation-only-fallback"

/-- `get_user_payload` of each schema.  The translation-family schemas take
`(text, initial_translation)` and include the latter only when truthy; the
questions schema takes `(text, question_count)`; the linguistic schema takes
`(full_text, selected_text)`.  All build `json.dumps(payload)`. -/
def SchemaId.get_user_payload (sid : SchemaId) (first second : Val) : String :=
  match sid with
  | .translate =>
      if second.truthy then
        jsonDumps (.dict [("input_text", first), ("initial_translation", second)])
      else
        jsonDumps (.dict [("input_text", first)])
  | .simple => jsonDumps (.dict [("input_text", first)])
  | .detailed =>
      if second.truthy then
        jsonDumps (.dict [("input_text", first), ("initial_translation", second)])
      else
        jsonDumps (.dict [("input_text", first)])
  | .questions =>
      jsonDumps (.dict [("input_text", first), ("question_count", second)])
  | .linguistic =>
      jsonDumps (.dict [("full_text", first), ("selected_text", second)])

/-- `parse_response` of each schema: lenient parse, then either the schema's
field projection or its parse-failure dictionary (`schemas.py`). -/
def SchemaId.parse_response (sid : SchemaId) (env : Env) (response : String) : Dict :=
  match sid, safe_json_parse env response with
  | .translate, none =>
      [("translated_text", .str response), ("explanations", .list []),
       ("raw_response", .str response), ("error", .str "Failed to parse JSON response")]
  | .translate, some parsed =>
      [("translated_text", Dict.getD parsed "translated_text" (.str "")),
       ("explanations", Dict.getD parsed "explainations_list" (.list [])),
       ("raw_response", .str response)]
  | .simple, none =>
      [("translated_text", .str response), ("raw_response", .str response),
       ("error", .str "Failed to parse JSON response")]
  | .simple, some parsed =>
      [("translated_text", Dict.getD parsed "translated_text" (.str "")),
       ("raw_response", .str response)]
  | .detailed, none =>
      [("translated_text", .str response), ("raw_response", .str response),
       ("error", .str "Failed to parse JSON response")]
  | .detailed, some parsed =>
      [("translated_text", Dict.getD parsed "translated_text" (.str "")),
       ("grammatical_analysis", Dict.getD parsed "grammatical_analysis" (.list [])),
       ("challenging_phrases", Dict.getD parsed "challenging_phrases" (.list [])),
       ("cultural_context", Dict.getD parsed "cultural_context" .null),
       ("stylistic_notes", Dict.getD parsed "stylistic_notes" .null),
       ("alternative_interpretations", Dict.getD parsed "alternative_interpretations" .null),
       ("raw_response", .str response)]
  | .questions, none =>
      [("response_text", .str response), ("error", .str "Failed to parse JSON response")]
  | .questions, some parsed =>
      [("questions_list", Dict.getD parsed "questions_list" (.list []))]
  | .linguistic, none =>
      [("error", .str "Failed to parse JSON response"), ("raw_response", .str response)]
  | .linguistic, some parsed =>
      [("analyzed_text", Dict.getD parsed "analyzed_text" (.dict [])),
       ("expansion_note", Dict.getD parsed "expansion_note" .null),
       ("english_translation", Dict.getD parsed "english_translation" (.str "")),
       ("sentence_structure_explanation", Dict.getD parsed "sentence_structure_explanation" (.str "")),
       ("grammatical_rule_explanation", Dict.getD parsed "grammatical_rule_explanation" (.str "")),
       ("grammar_patterns", Dict.getD parsed "grammar_patterns" (.list [])),
       ("raw_response", .str response)]

/-- Schemas registered at module load, in registration order. -/
def PromptingSchemaRegistry.schemas : List (String × SchemaId) :=
  [("translate", .translate), ("simple", .simple), ("detailed", .detailed),
   ("questions", .questions), ("linguistic", .linguistic)]

/-- `PromptingSchemaRegistry.get(name)`. -/
def PromptingSchemaRegistry.get (name : String) : Option SchemaId :=
  List.lookup name PromptingSchemaRegistry.schemas

/-- `PromptingSchemaRegistry.get_or_default(name)`: fall back to the
"translate" schema when the requested name is not registered. -/
def PromptingSchemaRegistry.get_or_default (name : String) : Option SchemaId :=
  match PromptingSchemaRegistry.get name with
  | some schema => some schema
  | none => PromptingSchemaRegistry.get "translate"

/-- Prompt assembly used by all service routines:
the f-string "System: ...\n\nUser: ...\n\nAssistant:". -/
def mkPrompt (system_prompt user_payload : String) : String :=
  "System: " ++ system_prompt ++ "\n\nUser: " ++ user_payload ++ "\n\nAssistant:"

/-- Python `x or default` for an optional string (both `None` and the empty
string are falsy and select the default). -/
def pyOrStr : Option String → String → String
  | none, dflt => dflt
  | some s, dflt => if s = "" then dflt else s

/-- Python `x or default` for an optional integer (both `None` and `0` are
falsy and select the default). -/
def pyOrInt : Option Int → Int → Int
  | none, dflt => dflt
  | some n, dflt => if n = 0 then dflt else n

/-- Value of an optional string as passed through `json.dumps`
(`None` becomes JSON `null`). -/
def Val.ofOptStr : Option String → Val
  | none => .null
  | some s => .str s

/-- `TranslationService._extract_translated_text`: strict-parse the cleaned
response, take its string `translated_text` field, otherwise fall back to
the stripped raw text. -/
def TranslationService.extract_translated_text (env : Env) (response_text : String) : String :=
  match env.json_loads response_text with
  | some parsed =>
      match Dict.getD parsed "translated_text" (.str "") with
      | .str candidate => candidate.trim
      | _ => response_text.trim
  | none => response_text.trim

/-- Body of one attempt of `_generate_initial_translation`: invoke the model,
strip markup when the raw reply is truthy, extract a candidate and accept it
when non-empty. -/
def tryTranslationAttempt (env : Env) (prompt : String) : Option (String × String) :=
  let raw := env.respond prompt
  let cleaned :=
    match raw with
    | some r => if r = "" then "" else env.clean_thinking r
    | none => ""
  let candidate := TranslationService.extract_translated_text env cleaned
  if candidate = "" then none else some (candidate, cleaned)

/-- `TranslationService._generate_initial_translation`: stage-1 translation
with dictionary hints, then a plain-text retry, then the identity fallback
`(text, text)`. -/
def TranslationService.generate_initial_translation (env : Env) (text : String) :
    String × String :=
  let dictionary_entries := env.dict_entries text
  let glossary_text := env.format_dict dictionary_entries
  let attempt1 := mkPrompt TRANSLATION_ONLY_SYSTEM_PROMPT
    (jsonDumps (.dict [("input_text", .str text), ("dictionary_matches", dictionary_entries)]))
  let attempt2 := mkPrompt TRANSLATION_ONLY_FALLBACK_PROMPT
    (text ++ "\n\nDictionary hints (local BDIC):\n" ++ glossary_text)
  match tryTranslationAttempt env attempt1 with
  | some res => res
  | none =>
      match tryTranslationAttempt env attempt2 with
      | some res => res
      | none => (text, text)

/-- Failure dictionary returned by `translate_with_qwen` when the backend
gives no (or an empty) response. -/
def noResponseQwenDict : Dict :=
  [("success", .bool false), ("model", .str "qwen"),
   ("error", .str "No response from Ollama")]

/-- `TranslationService.translate_with_qwen`: two-stage refinement pipeline
(or the single detailed-analysis stage), setting `success = True`
unconditionally after `parse_response`.  The impossible `none` registry
result (the "translate" schema is always registered, see
`get_or_default_isSome`) maps to the dict the surrounding
`except Exception` clause would produce from the `AttributeError`. -/
def TranslationService.translate_with_qwen (env : Env) (text : String)
    (schema_name : String) : Dict :=
  if !env.connected then
    [("success", .bool false), ("model", .str "qwen"),
     ("error", .str "Qwen/Ollama not available")]
  else
    match PromptingSchemaRegistry.get_or_default schema_name with
    | none =>
        [("success", .bool false), ("model", .str "qwen"),
         ("error", .str "AttributeError: NoneType has no attribute name")]
    | some schema =>
      if schema.name = "detailed" then
        let final_prompt := mkPrompt schema.get_system_prompt
          (schema.get_user_payload (.str text) .null)
        match env.respond final_prompt with
        | none => noResponseQwenDict
        | some final_response =>
          if final_response = "" then noResponseQwenDict
          else
            let final_response := env.clean_thinking final_response
            let parsed_result := schema.parse_response env final_response
            Dict.pySet (Dict.pySet parsed_result "success" (.bool true)) "model" (.str "qwen")
      else
        let initial_translation := (TranslationService.generate_initial_translation env text).1
        let initial_translation := initial_translation.trim
        let final_prompt := mkPrompt schema.get_system_prompt
          (schema.get_user_payload (.str text) (.str initial_translation))
        match env.respond final_prompt with
        | none => noResponseQwenDict
        | some final_response =>
          if final_response = "" then noResponseQwenDict
          else
            let final_response := env.clean_thinking final_response
            let parsed_result := schema.parse_response env final_response
            Dict.pySet (Dict.pySet (Dict.pySet parsed_result
              "initial_translation" (.str initial_translation))
              "success" (.bool true)) "model" (.str "qwen")

/-- `TranslationService.translate`: wrap `translate_with_qwen` with the
request metadata. -/
def TranslationService.translate (env : Env) (text : String) (schema_name : String) : Dict :=
  [("input_text", .str text), ("schema_used", .str schema_name),
   ("model", .str "qwen"),
   ("translation", .dict (TranslationService.translate_with_qwen env text schema_name))]

/-- `TranslationService.generate_questions`: clamp the requested count into
`[1, 20]`, invoke the questions schema, and set `success = True` and the
clamped `question_count` unconditionally after `parse_response`. -/
def TranslationService.generate_questions (env : Env) (text : String)
    (question_count : Int) : Dict :=
  if !env.connected then
    [("success", .bool false), ("error", .str "Qwen/Ollama not available")]
  else
    let question_count := max 1 (min question_count 20)
    match PromptingSchemaRegistry.get_or_default "questions" with
    | none =>
        [("success", .bool false),
         ("error", .str "AttributeError: NoneType has no attribute get_system_prompt")]
    | some schema =>
      let prompt := mkPrompt schema.get_system_prompt
        (schema.get_user_payload (.str text) (.int question_count))
      match env.respond prompt with
      | none => [("success", .bool false), ("error", .str "No response from Ollama")]
      | some response_text =>
        if response_text = "" then
          [("success", .bool false), ("error", .str "No response from Ollama")]
        else
          let response_text := env.clean_thinking response_text
          let parsed_result := schema.parse_response env response_text
          Dict.pySet (Dict.pySet parsed_result "success" (.bool true))
            "question_count" (.int question_count)

/-- `TranslationService.analyze_linguistic`: invoke the linguistic schema;
a parse failure is detected by the presence of the `error` key and turned
into a `success = False` dictionary. -/
def TranslationService.analyze_linguistic (env : Env)
    (full_text selected_text : Option String) : Dict :=
  if !env.connected then
    [("success", .bool false), ("error", .str "Qwen/Ollama not available")]
  else
    match PromptingSchemaRegistry.get_or_default "linguistic" with
    | none =>
        [("success", .bool false),
         ("error", .str "AttributeError: NoneType has no attribute get_system_prompt")]
    | some schema =>
      let prompt := mkPrompt schema.get_system_prompt
        (schema.get_user_payload (Val.ofOptStr full_text) (Val.ofOptStr selected_text))
      match env.respond prompt with
      | none => [("success", .bool false), ("error", .str "No response from Ollama")]
      | some response_text =>
        if response_text = "" then
          [("success", .bool false), ("error", .str "No response from Ollama")]
        else
          let response_text := env.clean_thinking response_text
          let parsed_result := schema.parse_response env response_text
          if (Dict.get? parsed_result "error").isSome then
            [("success", .bool false),
             ("error", Dict.getD parsed_result "error" (.str "Unknown parse error")),
             ("raw_response", Dict.getD parsed_result "raw_response" .null)]
          else
            Dict.pySet parsed_result "success" (.bool true)

/-- `JobStatus` enumeration (`models.py`): Queued / Running / Succeeded /
Failed are spelled pending / processing / completed / failed in the code. -/
inductive JobStatus where
  | pending
  | processing
  | completed
  | failed
deriving Repr, DecidableEq

/-- Terminal states (Succeeded or Failed). -/
def JobStatus.isTerminal : JobStatus → Bool
  | .completed => true
  | .failed => true
  | _ => false

/-- `JobRecord` dataclass (`async_jobs.py`).  Timestamps are abstract
integer instants; `result` holds the structured outcome value. -/
structure JobRecord where
  job_id : Nat
  status : JobStatus
  job_type : String
  text : String
  schema_name : String
  question_count : Int
  full_text : Option String
  selected_text : Option String
  created_at : Int
  started_at : Option Int := none
  completed_at : Option Int := none
  result : Option Val := none
  error : Option String := none
  progress : String := "Queued for processing"
deriving Repr

/-- Record created by `AsyncJobManager.submit_job`: Queued state, verbatim
payload with the Python `or`-defaults (`text or ""`,
`schema_name or "translate"`, `question_count or 5`). -/
def mkJobRecord (job_id : Nat) (text : Option String) (job_type : String)
    (schema_name : Option String) (question_count : Option Int)
    (full_text selected_text : Option String) (now : Int) : JobRecord :=
  { job_id := job_id
    status := .pending
    job_type := job_type
    text := text.getD ""
    schema_name := pyOrStr schema_name "translate"
    question_count := pyOrInt question_count 5
    full_text := full_text
    selected_text := selected_text
    created_at := now }

/-- Body of the `try` block of `AsyncJobManager._execute_job`: dispatch on
the job kind, check the kind-specific success indicator, and either build
the structured result or raise (`Except.error` = `raise Exception(msg)`,
whose message the `except` clause records). -/
def executeJobBody (env : Env) (job : JobRecord) : Except String Val :=
  if job.job_type = "translation" then
    let translation_result := TranslationService.translate env job.text job.schema_name
    let translation_data : Dict :=
      match Dict.get? translation_result "translation" with
      | some (.dict d) => d
      | _ => []
    if !(Dict.getTruthy translation_data "success") then
      .error (Dict.getStrD translation_data "error" "Translation failed")
    else
      .ok (.dict [("input_text", .str job.text),
        ("translations", .dict
          [(Dict.getStrD translation_result "model" "unknown", .dict translation_data)])])
  else if job.job_type = "questions" then
    let questions_result := TranslationService.generate_questions env job.text job.question_count
    if !(Dict.getTruthy questions_result "success") then
      .error (Dict.getStrD questions_result "error" "Question generation failed")
    else
      .ok (.dict [("input_text", .str job.text),
        ("question_count", .int job.question_count),
        ("questions", Dict.getD questions_result "questions_list" .null)])
  else if job.job_type = "linguistic" then
    let linguistic_result := TranslationService.analyze_linguistic env job.full_text job.selected_text
    if Dict.getTruthy linguistic_result "error" then
      .error (Dict.getStrD linguistic_result "error" "Linguistic analysis failed")
    else if !(Dict.getTruthy linguistic_result "success") then
      .error "Linguistic analysis returned no success status"
    else
      .ok (.dict (List.filter (fun p => p.1 ≠ "success") linguistic_result))
  else
    .error ("Unknown job type: " ++ job.job_type)

/-- State of the `AsyncJobManager`: the in-memory job store, the FIFO
processing queue, the single worker (`some id` while `_execute_job id` is
in flight), and the ghost submission order used to state the FIFO claim. -/
structure MgrState where
  jobs : Nat → Option JobRecord
  queue : List Nat
  worker : Option Nat
  order : List Nat

/-- Empty manager as built by `AsyncJobManager.__init__`. -/
def initState : MgrState :=
  { jobs := fun _ => none, queue := [], worker := none, order := [] }

/-- `AsyncJobManager.submit_job`: create a Queued record under a fresh id,
store it and append the id to the processing queue; returns immediately. -/
def AsyncJobManager.submit_job (s : MgrState) (id : Nat) (text : Option String)
    (job_type : String) (schema_name : Option String) (question_count : Option Int)
    (full_text selected_text : Option String) (now : Int) : MgrState :=
  { s with
    jobs := fun i =>
      if i = id then
        some (mkJobRecord id text job_type schema_name question_count
          full_text selected_text now)
      else s.jobs i
    queue := s.queue ++ [id]
    order := s.order ++ [id] }

/-- Record mutation at the head of `_execute_job`: mark Running, stamp
`started_at`, update the progress note. -/
def markProcessing (job : JobRecord) (now : Int) : JobRecord :=
  { job with
    status := .processing
    started_at := some now
    progress := "Processing in progress..." }

/-- Record mutation at the tail of `_execute_job`: commit the outcome of the
`try` block — Succeeded with the structured result, or Failed with the
exception message — stamping `completed_at` and the final progress note. -/
def commitOutcome (env : Env) (job : JobRecord) (now : Int) : JobRecord :=
  match executeJobBody env job with
  | .ok v =>
      { job with
        status := .completed
        result := some v
        progress := "Processing completed"
        completed_at := some now }
  | .error e =>
      { job with
        status := .failed
        error := some e
        progress := "Processing failed: " ++ e
        completed_at := some now }

/-- Dequeue plus the head of `_execute_job`: pop the queue head and — when
the record still exists — mark it Running, stamp `started_at` and update the
progress note; the worker then awaits the off-loaded model call.  A missing
record is simply skipped (`if not job: return`). -/
def AsyncJobManager.pick_job (s : MgrState) (id : Nat) (rest : List Nat)
    (now : Int) : MgrState :=
  match s.jobs id with
  | none => { s with queue := rest, worker := none }
  | some job =>
      { s with
        queue := rest
        worker := some id
        jobs := fun i => if i = id then some (markProcessing job now) else s.jobs i }

/-- Tail of `_execute_job`, run when the off-loaded call returns: commit the
outcome in one synchronous mutation sequence and release the worker. -/
def AsyncJobManager.finish_job (env : Env) (s : MgrState) (id : Nat) (now : Int) :
    MgrState :=
  match s.jobs id with
  | none => { s with worker := none }
  | some job =>
      { s with
        worker := none
        jobs := fun i => if i = id then some (commitOutcome env job now) else s.jobs i }

/-- Removal condition of `AsyncJobManager.cleanup_old_jobs`: terminal state
and strictly older than `max_age` seconds.  A terminal record always carries
a `completed_at` stamp (proved below for every reachable state); the `none`
branch is therefore dead and kept only to make the function total. -/
def shouldSweep (job : JobRecord) (max_age_seconds now : Int) : Bool :=
  job.status.isTerminal &&
    (match job.completed_at with
     | some c => now - c > max_age_seconds
     | none => false)

/-- `AsyncJobManager.cleanup_old_jobs`: delete every record matching
`shouldSweep` from the store; everything else is retained unchanged. -/
def AsyncJobManager.cleanup_old_jobs (s : MgrState) (max_age_seconds now : Int) :
    MgrState :=
  { s with
    jobs := fun i =>
      match s.jobs i with
      | some job => if shouldSweep job max_age_seconds now then none else some job
      | none => none }

/-- Interleaving semantics of the manager: submissions and sweeps may happen
at any suspension point; the single worker (`_process_jobs`) picks the queue
head only while idle and commits the outcome of the job it is busy with.
Submission ids are fresh (`uuid.uuid4`). -/
inductive Step (env : Env) : MgrState → MgrState → Prop where
  | submit (s : MgrState) (id : Nat) (text : Option String) (job_type : String)
      (schema_name : Option String) (question_count : Option Int)
      (full_text selected_text : Option String) (now : Int)
      (hfresh_order : id ∉ s.order) (hfresh_jobs : s.jobs id = none) :
      Step env s (AsyncJobManager.submit_job s id text job_type schema_name
        question_count full_text selected_text now)
  | pick (s : MgrState) (id : Nat) (rest : List Nat) (now : Int)
      (hworker : s.worker = none) (hqueue : s.queue = id :: rest) :
      Step env s (AsyncJobManager.pick_job s id rest now)
  | finish (s : MgrState) (id : Nat) (now : Int) (hworker : s.worker = some id) :
      Step env s (AsyncJobManager.finish_job env s id now)
  | sweep (s : MgrState) (max_age_seconds now : Int) :
      Step env s (AsyncJobManager.cleanup_old_jobs s max_age_seconds now)

/-- States reachable from the freshly constructed manager. -/
def Reachable (env : Env) (s : MgrState) : Prop :=
  Relation.ReflTransGen (Step env) initState s

/-- Queue membership predicate: the record exists and is still Queued. -/
def isPendingAt (s : MgrState) (id : Nat) : Bool :=
  match s.jobs id with
  | some j => j.status = .pending
  | none => false

/-- Job `id` has left the Queued state (a swept record had left it long
before it was deleted, so a missing record counts as started). -/
def startedAt (s : MgrState) (id : Nat) : Prop :=
  match s.jobs id with
  | some j => j.status ≠ .pending
  | none => True

/-- Job `id` has reached a terminal state (or was already swept, which
requires a terminal state). -/
def doneAt (s : MgrState) (id : Nat) : Prop :=
  match s.jobs id with
  | some j => j.status = .completed ∨ j.status = .failed
  | none => True

theorem isPendingAt_eq_of_jobs_eq {s s' : MgrState} {x : Nat}
    (h : s'.jobs x = s.jobs x) : isPendingAt s' x = isPendingAt s x := by
  unfold isPendingAt
  rw [h]

theorem startedAt_eq_of_jobs_eq {s s' : MgrState} {x : Nat}
    (h : s'.jobs x = s.jobs x) : startedAt s' x = startedAt s x := by
  unfold startedAt
  rw [h]

theorem doneAt_eq_of_jobs_eq {s s' : MgrState} {x : Nat}
    (h : s'.jobs x = s.jobs x) : doneAt s' x = doneAt s x := by
  unfold doneAt
  rw [h]

/-- Inductive invariant of the manager.  It packages the record-shape
invariants from the data-model section of the design (result/error versus
state, timestamp presence), the single-worker discipline, the
characterisation of the queue as the pending records in submission order,
and the serial-FIFO ordering property. -/
structure ManagerInv (s : MgrState) : Prop where
  jobs_order : ∀ id j, s.jobs id = some j → id ∈ s.order
  order_nodup : s.order.Nodup
  pending_shape : ∀ id j, s.jobs id = some j → j.status = .pending →
    j.started_at = none ∧ j.completed_at = none ∧ j.result = none ∧ j.error = none
  processing_shape : ∀ id j, s.jobs id = some j → j.status = .processing →
    j.completed_at = none ∧ j.result = none ∧ j.error = none
  completed_shape : ∀ id j, s.jobs id = some j → j.status = .completed →
    j.result.isSome ∧ j.error = none ∧ j.completed_at.isSome
  failed_shape : ∀ id j, s.jobs id = some j → j.status = .failed →
    j.error.isSome ∧ j.result = none ∧ j.completed_at.isSome
  worker_processing : ∀ id, s.worker = some id →
    ∃ j, s.jobs id = some j ∧ j.status = .processing
  processing_worker : ∀ id j, s.jobs id = some j → j.status = .processing →
    s.worker = some id
  queue_spec : s.queue = s.order.filter (fun id => isPendingAt s id)
  serial : s.order.Pairwise (fun a b => startedAt s b → doneAt s a)

theorem inv_init : ManagerInv initState := by
  constructor <;> simp [initState, isPendingAt, startedAt, doneAt]

theorem inv_submit (s : MgrState) (id : Nat) (text : Option String) (job_type : String)
    (schema_name : Option String) (question_count : Option Int)
    (full_text selected_text : Option String) (now : Int)
    (hinv : ManagerInv s) (hfo : id ∉ s.order) (hfj : s.jobs id = none) :
    ManagerInv (AsyncJobManager.submit_job s id text job_type schema_name
      question_count full_text selected_text now) := by
  refine ⟨?_, ?_, ?_, ?_, ?_, ?_, ?_, ?_, ?_, ?_⟩
  · intro i j h
    simp only [AsyncJobManager.submit_job] at h ⊢
    by_cases hi : i = id
    · subst hi
      exact List.mem_append_right _ (List.mem_singleton.mpr rfl)
    · rw [if_neg hi] at h
      exact List.mem_append_left _ (hinv.jobs_order i j h)
  · simp only [AsyncJobManager.submit_job]
    rw [List.nodup_append]
    refine ⟨hinv.order_nodup, List.nodup_singleton id, ?_⟩
    intro a ha hb
    rw [List.mem_singleton] at hb
    exact hfo (hb ▸ ha)
  · intro i j h _
    simp only [AsyncJobManager.submit_job] at h
    by_cases hi : i = id
    · rw [if_pos hi] at h
      injection h with h
      subst h
      exact ⟨rfl, rfl, rfl, rfl⟩
    · rw [if_neg hi] at h
      exact hinv.pending_shape i j h (by assumption)
  · intro i j h hst
    simp only [AsyncJobManager.submit_job] at h
    by_cases hi : i = id
    · rw [if_pos hi] at h
      injection h with h
      subst h
      simp [mkJobRecord] at hst
    · rw [if_neg hi] at h
      exact hinv.processing_shape i j h hst
  · intro i j h hst
    simp only [AsyncJobManager.submit_job] at h
    by_cases hi : i = id
    · rw [if_pos hi] at h
      injection h with h
      subst h
      simp [mkJobRecord] at hst
    · rw [if_neg hi] at h
      exact hinv.completed_shape i j h hst
  · intro i j h hst
    simp only [AsyncJobManager.submit_job] at h
    by_cases hi : i = id
    · rw [if_pos hi] at h
      injection h with h
      subst h
      simp [mkJobRecord] at hst
    · rw [if_neg hi] at h
      exact hinv.failed_shape i j h hst
  · intro w hw
    simp only [AsyncJobManager.submit_job] at hw ⊢
    obtain ⟨j, hj, hst⟩ := hinv.worker_processing w hw
    by_cases hwid : w = id
    · rw [hwid, hfj] at hj
      cases hj
    · exact ⟨j, by rw [if_neg hwid]; exact hj, hst⟩
  · intro i j h hst
    simp only [AsyncJobManager.submit_job] at h ⊢
    by_cases hi : i = id
    · rw [if_pos hi] at h
      injection h with h
      subst h
      simp [mkJobRecord] at hst
    · rw [if_neg hi] at h
      exact hinv.processing_worker i j h hst
  · show s.queue ++ [id] = List.filter _ (s.order ++ [id])
    rw [List.filter_append]
    have hpred : ∀ x ∈ s.order,
        isPendingAt (AsyncJobManager.submit_job s id text job_type schema_name
          question_count full_text selected_text now) x = isPendingAt s x := by
      intro x hx
      apply isPendingAt_eq_of_jobs_eq
      have hxid : x ≠ id := fun h => hfo (h ▸ hx)
      simp only [AsyncJobManager.submit_job]
      rw [if_neg hxid]
    have hid : isPendingAt (AsyncJobManager.submit_job s id text job_type schema_name
        question_count full_text selected_text now) id = true := by
      unfold isPendingAt
      simp [AsyncJobManager.submit_job, mkJobRecord]
    rw [hinv.queue_spec]
    congr 1
    · exact (List.filter_congr hpred).symm
    · simp [hid]
  · show List.Pairwise _ (s.order ++ [id])
    rw [List.pairwise_append]
    refine ⟨?_, List.pairwise_singleton _ _, ?_⟩
    · refine List.Pairwise.imp_of_mem ?_ hinv.serial
      intro a b ha hb hab hstarted
      have hane : a ≠ id := fun h => hfo (h ▸ ha)
      have hbne : b ≠ id := fun h => hfo (h ▸ hb)
      have ha' : (AsyncJobManager.submit_job s id text job_type schema_name
          question_count full_text selected_text now).jobs a = s.jobs a := if_neg hane
      have hb' : (AsyncJobManager.submit_job s id text job_type schema_name
          question_count full_text selected_text now).jobs b = s.jobs b := if_neg hbne
      rw [doneAt_eq_of_jobs_eq ha']
      rw [startedAt_eq_of_jobs_eq hb'] at hstarted
      exact hab hstarted
    · intro a _ b hb
      rw [List.mem_singleton] at hb
      subst hb
      intro hstarted
      exfalso
      unfold startedAt at hstarted
      simp [AsyncJobManager.submit_job, mkJobRecord] at hstarted

theorem pick_job_eq (s : MgrState) (id : Nat) (rest : List Nat) (now : Int)
    (job : JobRecord) (hj : s.jobs id = some job) :
    AsyncJobManager.pick_job s id rest now =
      { s with
        queue := rest
        worker := some id
        jobs := fun i => if i = id then some (markProcessing job now) else s.jobs i } := by
  unfold AsyncJobManager.pick_job
  rw [hj]

theorem finish_job_eq (env : Env) (s : MgrState) (id : Nat) (now : Int)
    (job : JobRecord) (hj : s.jobs id = some job) :
    AsyncJobManager.finish_job env s id now =
      { s with
        worker := none
        jobs := fun i => if i = id then some (commitOutcome env job now) else s.jobs i } := by
  unfold AsyncJobManager.finish_job
  rw [hj]

theorem inv_pick (s : MgrState) (id : Nat) (rest : List Nat) (now : Int)
    (hinv : ManagerInv s) (hworker : s.worker = none) (hqueue : s.queue = id :: rest) :
    ManagerInv (AsyncJobManager.pick_job s id rest now) := by
  have hfilter : List.filter (fun i => isPendingAt s i) s.order = id :: rest := by
    rw [← hinv.queue_spec]
    exact hqueue
  obtain ⟨l₁, l₂, horder, hl₁, hpid, hl₂⟩ := List.filter_eq_cons_iff.mp hfilter
  have hjob : ∃ job, s.jobs id = some job ∧ job.status = JobStatus.pending := by
    unfold isPendingAt at hpid
    cases hjx : s.jobs id with
    | none => rw [hjx] at hpid; cases hpid
    | some job =>
        rw [hjx] at hpid
        simp only [decide_eq_true_eq] at hpid
        exact ⟨job, rfl, hpid⟩
  obtain ⟨job, hj, hjpend⟩ := hjob
  obtain ⟨hjs, hjc, hjr, hje⟩ := hinv.pending_shape id job hj hjpend
  have hnodup := hinv.order_nodup
  rw [horder, List.nodup_append, List.nodup_cons] at hnodup
  obtain ⟨hnd₁, ⟨hid₂, hnd₂⟩, hdisj⟩ := hnodup
  have hid₁ : id ∉ l₁ := fun hmem => hdisj hmem (List.mem_cons_self id l₂)
  have hne₁ : ∀ x ∈ l₁, x ≠ id := fun x hx hxe => hid₁ (hxe ▸ hx)
  have hne₂ : ∀ x ∈ l₂, x ≠ id := fun x hx hxe => hid₂ (hxe ▸ hx)
  rw [pick_job_eq s id rest now job hj]
  set jnew := markProcessing job now with hjnew
  set s' : MgrState :=
    { s with
      queue := rest
      worker := some id
      jobs := fun i => if i = id then some jnew else s.jobs i } with hs'
  have hsjobs : ∀ x, s'.jobs x = if x = id then some jnew else s.jobs x := fun x => rfl
  have hjobs_ne : ∀ x, x ≠ id → s'.jobs x = s.jobs x := by
    intro x hx
    rw [hsjobs x, if_neg hx]
  have hjobs_id : s'.jobs id = some jnew := by
    rw [hsjobs id, if_pos rfl]
  have hsqueue : s'.queue = rest := rfl
  have hsworker : s'.worker = some id := rfl
  have hsorder : s'.order = s.order := rfl
  have hnewstatus : jnew.status = JobStatus.processing := rfl
  refine ⟨?_, ?_, ?_, ?_, ?_, ?_, ?_, ?_, ?_, ?_⟩
  · intro i j h
    rw [hsorder]
    rw [hsjobs i] at h
    by_cases hi : i = id
    · subst hi
      exact hinv.jobs_order i job hj
    · rw [if_neg hi] at h
      exact hinv.jobs_order i j h
  · rw [hsorder]
    exact hinv.order_nodup
  · intro i j h hst
    rw [hsjobs i] at h
    by_cases hi : i = id
    · rw [if_pos hi] at h
      injection h with h
      subst h
      rw [hnewstatus] at hst
      cases hst
    · rw [if_neg hi] at h
      exact hinv.pending_shape i j h hst
  · intro i j h hst
    rw [hsjobs i] at h
    by_cases hi : i = id
    · rw [if_pos hi] at h
      injection h with h
      subst h
      exact ⟨hjc, hjr, hje⟩
    · rw [if_neg hi] at h
      have := hinv.processing_worker i j h hst
      rw [hworker] at this
      cases this
  · intro i j h hst
    rw [hsjobs i] at h
    by_cases hi : i = id
    · rw [if_pos hi] at h
      injection h with h
      subst h
      rw [hnewstatus] at hst
      cases hst
    · rw [if_neg hi] at h
      exact hinv.completed_shape i j h hst
  · intro i j h hst
    rw [hsjobs i] at h
    by_cases hi : i = id
    · rw [if_pos hi] at h
      injection h with h
      subst h
      rw [hnewstatus] at hst
      cases hst
    · rw [if_neg hi] at h
      exact hinv.failed_shape i j h hst
  · intro w hw
    rw [hsworker] at hw
    injection hw with hw
    subst hw
    exact ⟨jnew, hjobs_id, hnewstatus⟩
  · intro i j h hst
    rw [hsjobs i] at h
    by_cases hi : i = id
    · subst hi
      exact hsworker
    · rw [if_neg hi] at h
      have := hinv.processing_worker i j h hst
      rw [hworker] at this
      cases this
  · rw [hsqueue, hsorder, horder, List.filter_append, List.filter_cons]
    have hpfalse : (isPendingAt s' id) = false := by
      unfold isPendingAt
      rw [hjobs_id]
      simp [hnewstatus]
    have hfilter₁ : List.filter (fun i => isPendingAt s' i) l₁ = [] := by
      rw [List.filter_eq_nil_iff]
      intro x hx
      rw [isPendingAt_eq_of_jobs_eq (hjobs_ne x (hne₁ x hx))]
      exact hl₁ x hx
    have hfilter₂ : List.filter (fun i => isPendingAt s' i) l₂ =
        List.filter (fun i => isPendingAt s i) l₂ := by
      apply List.filter_congr
      intro x hx
      exact isPendingAt_eq_of_jobs_eq (hjobs_ne x (hne₂ x hx))
    rw [hfilter₁, hfilter₂, hl₂, hpfalse]
    simp
  · rw [hsorder, horder]
    have hserial := hinv.serial
    rw [horder, List.pairwise_append] at hserial
    obtain ⟨hp₁, hpc, hcross⟩ := hserial
    rw [List.pairwise_cons] at hpc
    obtain ⟨hidb, hp₂⟩ := hpc
    have hdone_s_id : ¬ doneAt s id := by
      unfold doneAt
      rw [hj]
      simp [hjpend]
    have hdone_trans : ∀ x, x ≠ id → doneAt s x → doneAt s' x := by
      intro x hx hd
      rw [doneAt_eq_of_jobs_eq (hjobs_ne x hx)]
      exact hd
    have hstarted_trans : ∀ x, x ≠ id → startedAt s' x → startedAt s x := by
      intro x hx hd
      rw [← startedAt_eq_of_jobs_eq (hjobs_ne x hx)]
      exact hd
    have hdone_l₁ : ∀ x ∈ l₁, doneAt s x := by
      intro x hx
      have hnp := hl₁ x hx
      unfold isPendingAt at hnp
      unfold doneAt
      cases hjx : s.jobs x with
      | none => trivial
      | some jx =>
          rw [hjx] at hnp
          simp only [decide_eq_true_eq] at hnp
          cases hstx : jx.status with
          | pending => exact absurd hstx hnp
          | processing =>
              have := hinv.processing_worker x jx hjx hstx
              rw [hworker] at this
              cases this
          | completed => exact Or.inl hstx
          | failed => exact Or.inr hstx
    rw [List.pairwise_append]
    refine ⟨?_, ?_, ?_⟩
    · refine List.Pairwise.imp_of_mem ?_ hp₁
      intro a b ha hb hab hstarted
      exact hdone_trans a (hne₁ a ha) (hab (hstarted_trans b (hne₁ b hb) hstarted))
    · rw [List.pairwise_cons]
      refine ⟨?_, ?_⟩
      · intro b hb hstarted
        exfalso
        have hnb : ¬ startedAt s b := fun hsb => hdone_s_id (hidb b hb hsb)
        exact hnb (hstarted_trans b (hne₂ b hb) hstarted)
      · refine List.Pairwise.imp_of_mem ?_ hp₂
        intro a b ha hb hab hstarted
        exact hdone_trans a (hne₂ a ha) (hab (hstarted_trans b (hne₂ b hb) hstarted))
    · intro a ha b hb
      rcases List.mem_cons.mp hb with hbid | hb₂
      · subst hbid
        intro _
        exact hdone_trans a (hne₁ a ha) (hdone_l₁ a ha)
      · intro hstarted
        exact hdone_trans a (hne₁ a ha)
          (hcross a ha b (List.mem_cons_of_mem id hb₂) (hstarted_trans b (hne₂ b hb₂) hstarted))

theorem shouldSweep_of_terminal_eq_false {job : JobRecord} {a b : Int}
    (h : job.status = JobStatus.pending ∨ job.status = JobStatus.processing) :
    shouldSweep job a b = false := by
  unfold shouldSweep
  rcases h with h | h <;> rw [h] <;> rfl

theorem shouldSweep_terminal {job : JobRecord} {a b : Int}
    (h : shouldSweep job a b = true) :
    job.status = JobStatus.completed ∨ job.status = JobStatus.failed := by
  unfold shouldSweep at h
  rw [Bool.and_eq_true] at h
  cases hst : job.status with
  | pending => rw [hst] at h; cases h.1
  | processing => rw [hst] at h; cases h.1
  | completed => exact Or.inl rfl
  | failed => exact Or.inr rfl

theorem inv_finish (env : Env) (s : MgrState) (id : Nat) (now : Int)
    (hinv : ManagerInv s) (hworker : s.worker = some id) :
    ManagerInv (AsyncJobManager.finish_job env s id now) := by
  obtain ⟨job, hj, hjproc⟩ := hinv.worker_processing id hworker
  obtain ⟨hjc, hjr, hje⟩ := hinv.processing_shape id job hj hjproc
  rw [finish_job_eq env s id now job hj]
  set jnew := commitOutcome env job now with hjnew
  set s' : MgrState :=
    { s with
      worker := none
      jobs := fun i => if i = id then some jnew else s.jobs i } with hs'
  have hsjobs : ∀ x, s'.jobs x = if x = id then some jnew else s.jobs x := fun _ => rfl
  have hjobs_ne : ∀ x, x ≠ id → s'.jobs x = s.jobs x := by
    intro x hx
    rw [hsjobs x, if_neg hx]
  have hjobs_id : s'.jobs id = some jnew := by
    rw [hsjobs id, if_pos rfl]
  have hsqueue : s'.queue = s.queue := rfl
  have hsworker : s'.worker = none := rfl
  have hsorder : s'.order = s.order := rfl
  have hjnew_cases :
      (jnew.status = JobStatus.completed ∧ jnew.result.isSome ∧ jnew.error = job.error ∧
        jnew.completed_at = some now) ∨
      (jnew.status = JobStatus.failed ∧ jnew.error.isSome ∧ jnew.result = job.result ∧
        jnew.completed_at = some now) := by
    rw [hjnew]
    unfold commitOutcome
    cases executeJobBody env job with
    | ok v => exact Or.inl ⟨rfl, rfl, rfl, rfl⟩
    | error e => exact Or.inr ⟨rfl, rfl, rfl, rfl⟩
  have hjnew_term : jnew.status = JobStatus.completed ∨ jnew.status = JobStatus.failed := by
    rcases hjnew_cases with ⟨h, _⟩ | ⟨h, _⟩
    · exact Or.inl h
    · exact Or.inr h
  have hjnew_npend : jnew.status ≠ JobStatus.pending := by
    rcases hjnew_term with h | h <;> rw [h] <;> intro hc <;> cases hc
  have hjnew_nproc : jnew.status ≠ JobStatus.processing := by
    rcases hjnew_term with h | h <;> rw [h] <;> intro hc <;> cases hc
  have hstart_s_id : startedAt s id := by
    unfold startedAt
    rw [hj]
    simp [hjproc]
  refine ⟨?_, ?_, ?_, ?_, ?_, ?_, ?_, ?_, ?_, ?_⟩
  · intro i j h
    rw [hsorder]
    rw [hsjobs i] at h
    by_cases hi : i = id
    · subst hi
      exact hinv.jobs_order i job hj
    · rw [if_neg hi] at h
      exact hinv.jobs_order i j h
  · rw [hsorder]
    exact hinv.order_nodup
  · intro i j h hst
    rw [hsjobs i] at h
    by_cases hi : i = id
    · rw [if_pos hi] at h
      injection h with h
      subst h
      exact absurd hst hjnew_npend
    · rw [if_neg hi] at h
      exact hinv.pending_shape i j h hst
  · intro i j h hst
    rw [hsjobs i] at h
    by_cases hi : i = id
    · rw [if_pos hi] at h
      injection h with h
      subst h
      exact absurd hst hjnew_nproc
    · rw [if_neg hi] at h
      have := hinv.processing_worker i j h hst
      rw [hworker] at this
      injection this with this
      exact absurd this.symm hi
  · intro i j h hst
    rw [hsjobs i] at h
    by_cases hi : i = id
    · rw [if_pos hi] at h
      injection h with h
      subst h
      rcases hjnew_cases with ⟨_, hres, herr, hcomp⟩ | ⟨hstat, _⟩
      · rw [herr, hcomp]
        exact ⟨hres, hje, rfl⟩
      · rw [hstat] at hst
        cases hst
    · rw [if_neg hi] at h
      exact hinv.completed_shape i j h hst
  · intro i j h hst
    rw [hsjobs i] at h
    by_cases hi : i = id
    · rw [if_pos hi] at h
      injection h with h
      subst h
      rcases hjnew_cases with ⟨hstat, _⟩ | ⟨_, herr, hres, hcomp⟩
      · rw [hstat] at hst
        cases hst
      · rw [hres, hcomp]
        exact ⟨herr, hjr, rfl⟩
    · rw [if_neg hi] at h
      exact hinv.failed_shape i j h hst
  · intro w hw
    rw [hsworker] at hw
    cases hw
  · intro i j h hst
    rw [hsjobs i] at h
    by_cases hi : i = id
    · rw [if_pos hi] at h
      injection h with h
      subst h
      exact absurd hst hjnew_nproc
    · rw [if_neg hi] at h
      have := hinv.processing_worker i j h hst
      rw [hworker] at this
      injection this with this
      exact absurd this.symm hi
  · rw [hsqueue, hsorder, hinv.queue_spec]
    apply List.filter_congr
    intro x _
    by_cases hx : x = id
    · subst hx
      have h₁ : isPendingAt s x = false := by
        unfold isPendingAt
        rw [hj]
        simp [hjproc]
      have h₂ : isPendingAt s' x = false := by
        unfold isPendingAt
        rw [hjobs_id]
        simp [hjnew_npend]
      rw [h₁, h₂]
    · exact (isPendingAt_eq_of_jobs_eq (hjobs_ne x hx)).symm
  · rw [hsorder]
    refine List.Pairwise.imp ?_ hinv.serial
    intro a b hab hstarted
    have hstart_s_b : startedAt s b := by
      by_cases hb : b = id
      · subst hb
        exact hstart_s_id
      · rw [← startedAt_eq_of_jobs_eq (hjobs_ne b hb)]
        exact hstarted
    have hdone := hab hstart_s_b
    by_cases ha : a = id
    · subst ha
      unfold doneAt
      rw [hjobs_id]
      exact hjnew_term
    · rw [doneAt_eq_of_jobs_eq (hjobs_ne a ha)]
      exact hdone

theorem inv_sweep (s : MgrState) (max_age now : Int) (hinv : ManagerInv s) :
    ManagerInv (AsyncJobManager.cleanup_old_jobs s max_age now) := by
  set s' := AsyncJobManager.cleanup_old_jobs s max_age now with hs'
  have hsjobs : ∀ x, s'.jobs x =
      match s.jobs x with
      | some j => if shouldSweep j max_age now then none else some j
      | none => none := fun _ => rfl
  have hsqueue : s'.queue = s.queue := rfl
  have hsworker : s'.worker = s.worker := rfl
  have hsorder : s'.order = s.order := rfl
  have hsome : ∀ x j, s'.jobs x = some j →
      s.jobs x = some j ∧ shouldSweep j max_age now = false := by
    intro x j h
    rw [hsjobs x] at h
    cases hjx : s.jobs x with
    | none => rw [hjx] at h; cases h
    | some j0 =>
        rw [hjx] at h
        by_cases hsw : shouldSweep j0 max_age now
        · simp [hsw] at h
        · simp [hsw] at h
          subst h
          exact ⟨rfl, Bool.eq_false_iff.mpr hsw⟩
  have hkeep : ∀ x j, s.jobs x = some j → shouldSweep j max_age now = false →
      s'.jobs x = some j := by
    intro x j h hsw
    rw [hsjobs x, h]
    simp [hsw]
  refine ⟨?_, ?_, ?_, ?_, ?_, ?_, ?_, ?_, ?_, ?_⟩
  · intro i j h
    rw [hsorder]
    exact hinv.jobs_order i j (hsome i j h).1
  · rw [hsorder]
    exact hinv.order_nodup
  · intro i j h hst
    exact hinv.pending_shape i j (hsome i j h).1 hst
  · intro i j h hst
    exact hinv.processing_shape i j (hsome i j h).1 hst
  · intro i j h hst
    exact hinv.completed_shape i j (hsome i j h).1 hst
  · intro i j h hst
    exact hinv.failed_shape i j (hsome i j h).1 hst
  · intro w hw
    rw [hsworker] at hw
    obtain ⟨j, hj, hst⟩ := hinv.worker_processing w hw
    exact ⟨j, hkeep w j hj (shouldSweep_of_terminal_eq_false (Or.inr hst)), hst⟩
  · intro i j h hst
    rw [hsworker]
    exact hinv.processing_worker i j (hsome i j h).1 hst
  · rw [hsqueue, hsorder, hinv.queue_spec]
    apply List.filter_congr
    intro x _
    unfold isPendingAt
    cases hjx : s.jobs x with
    | none =>
        have : s'.jobs x = none := by
          rw [hsjobs x, hjx]
        rw [this]
    | some j =>
        by_cases hsw : shouldSweep j max_age now
        · have h' : s'.jobs x = none := by
            rw [hsjobs x, hjx]
            simp [hsw]
          rw [h']
          rcases shouldSweep_terminal hsw with ht | ht <;> simp [ht]
        · have h' : s'.jobs x = some j := hkeep x j hjx (Bool.eq_false_iff.mpr hsw)
          rw [h']
  · rw [hsorder]
    refine List.Pairwise.imp ?_ hinv.serial
    intro a b hab hstarted
    have hstart_s_b : startedAt s b := by
      unfold startedAt
      cases hjb : s.jobs b with
      | none => trivial
      | some jb =>
          by_cases hsw : shouldSweep jb max_age now
          · intro hpend
            rcases shouldSweep_terminal hsw with ht | ht <;> rw [hpend] at ht <;> cases ht
          · have h' : s'.jobs b = some jb := hkeep b jb hjb (Bool.eq_false_iff.mpr hsw)
            unfold startedAt at hstarted
            rw [h'] at hstarted
            exact hstarted
    have hdone := hab hstart_s_b
    unfold doneAt
    cases hja : s.jobs a with
    | none =>
        have : s'.jobs a = none := by
          rw [hsjobs a, hja]
        rw [this]
        trivial
    | some ja =>
        by_cases hsw : shouldSweep ja max_age now
        · have h' : s'.jobs a = none := by
            rw [hsjobs a, hja]
            simp [hsw]
          rw [h']
          trivial
        · have h' : s'.jobs a = some ja := hkeep a ja hja (Bool.eq_false_iff.mpr hsw)
          rw [h']
          unfold doneAt at hdone
          rw [hja] at hdone
          exact hdone

theorem inv_step {env : Env} {s s' : MgrState} (hinv : ManagerInv s)
    (hstep : Step env s s') : ManagerInv s' := by
  cases hstep with
  | submit id text job_type schema_name question_count full_text selected_text now hfo hfj =>
      exact inv_submit s id text job_type schema_name question_count full_text
        selected_text now hinv hfo hfj
  | pick id rest now hworker hqueue => exact inv_pick s id rest now hinv hworker hqueue
  | finish id now hworker => exact inv_finish env s id now hinv hworker
  | sweep max_age now => exact inv_sweep s max_age now hinv

/-- Every reachable manager state satisfies the inductive invariant. -/
theorem inv_reachable {env : Env} {s : MgrState} (h : Reachable env s) : ManagerInv s := by
  induction h with
  | refl => exact inv_init
  | tail _ hstep ih => exact inv_step ih hstep

theorem Dict.get?_pySet_self (d : Dict) (k : String) (v : Val) :
    Dict.get? (Dict.pySet d k v) k = some v := by
  induction d with
  | nil => simp [Dict.pySet, Dict.get?]
  | cons p rest ih =>
      obtain ⟨k', v'⟩ := p
      unfold Dict.pySet
      by_cases hk : k' = k
      · rw [if_pos hk]
        simp [Dict.get?]
      · rw [if_neg hk]
        unfold Dict.get?
        rw [if_neg hk]
        exact ih

theorem Dict.get?_pySet_ne (d : Dict) (k k' : String) (v : Val) (h : k' ≠ k) :
    Dict.get? (Dict.pySet d k v) k' = Dict.get? d k' := by
  induction d with
  | nil =>
      simp [Dict.pySet, Dict.get?]
      intro hc
      exact absurd hc.symm h
  | cons p rest ih =>
      obtain ⟨k₀, v₀⟩ := p
      unfold Dict.pySet
      by_cases hk : k₀ = k
      · subst hk
        rw [if_pos rfl]
        unfold Dict.get?
        rw [if_neg (fun hc => h hc.symm), if_neg (fun hc => h hc.symm)]
      · rw [if_neg hk]
        unfold Dict.get?
        by_cases hk' : k₀ = k'
        · rw [if_pos hk', if_pos hk']
        · rw [if_neg hk', if_neg hk']
          exact ih

theorem Dict.getTruthy_pySet_self (d : Dict) (k : String) (v : Val) :
    Dict.getTruthy (Dict.pySet d k v) k = v.truthy := by
  unfold Dict.getTruthy
  rw [Dict.get?_pySet_self]

theorem Dict.getTruthy_pySet_ne (d : Dict) (k k' : String) (v : Val) (h : k' ≠ k) :
    Dict.getTruthy (Dict.pySet d k v) k' = Dict.getTruthy d k' := by
  unfold Dict.getTruthy
  rw [Dict.get?_pySet_ne d k k' v h]

/-- The registry always yields a schema: the "translate" fallback is
registered at module load. -/
theorem get_or_default_isSome (name : String) :
    ∃ sid, PromptingSchemaRegistry.get_or_default name = some sid := by
  unfold PromptingSchemaRegistry.get_or_default
  cases h : PromptingSchemaRegistry.get name with
  | some sid => exact ⟨sid, rfl⟩
  | none => exact ⟨SchemaId.translate, rfl⟩

/-- Unregistered names fall back to the default "translate" schema. -/
theorem get_or_default_unregistered (name : String)
    (h : PromptingSchemaRegistry.get name = none) :
    PromptingSchemaRegistry.get_or_default name = some SchemaId.translate := by
  unfold PromptingSchemaRegistry.get_or_default
  rw [h]
  rfl

theorem translate_with_qwen_not_connected (env : Env) (text sn : String)
    (hconn : env.connected = false) :
    TranslationService.translate_with_qwen env text sn =
      [("success", .bool false), ("model", .str "qwen"),
       ("error", .str "Qwen/Ollama not available")] := by
  unfold TranslationService.translate_with_qwen
  rw [hconn]
  rfl

theorem generate_questions_not_connected (env : Env) (text : String) (qc : Int)
    (hconn : env.connected = false) :
    TranslationService.generate_questions env text qc =
      [("success", .bool false), ("error", .str "Qwen/Ollama not available")] := by
  unfold TranslationService.generate_questions
  rw [hconn]
  rfl

theorem analyze_linguistic_not_connected (env : Env) (ft st : Option String)
    (hconn : env.connected = false) :
    TranslationService.analyze_linguistic env ft st =
      [("success", .bool false), ("error", .str "Qwen/Ollama not available")] := by
  unfold TranslationService.analyze_linguistic
  rw [hconn]
  rfl

theorem translate_with_qwen_no_response (env : Env) (text sn : String)
    (hconn : env.connected = true)
    (hresp : ∀ p r, env.respond p = some r → r = "") :
    TranslationService.translate_with_qwen env text sn = noResponseQwenDict := by
  unfold TranslationService.translate_with_qwen
  rw [hconn]
  rw [if_neg (by decide)]
  obtain ⟨sid, hsid⟩ := get_or_default_isSome sn
  simp only [hsid]
  by_cases hdet : sid.name = "detailed"
  · rw [if_pos hdet]
    split
    · rfl
    · next r heq =>
        have hr0 := hresp _ _ heq
        subst hr0
        rfl
  · rw [if_neg hdet]
    split
    · rfl
    · next r heq =>
        have hr0 := hresp _ _ heq
        subst hr0
        rfl

theorem generate_questions_no_response (env : Env) (text : String) (qc : Int)
    (hconn : env.connected = true)
    (hresp : ∀ p r, env.respond p = some r → r = "") :
    TranslationService.generate_questions env text qc =
      [("success", .bool false), ("error", .str "No response from Ollama")] := by
  unfold TranslationService.generate_questions
  rw [hconn]
  rw [if_neg (by decide)]
  have hq : PromptingSchemaRegistry.get_or_default "questions" = some SchemaId.questions := rfl
  simp only [hq]
  split
  · rfl
  · next r hreq =>
      have hr0 := hresp _ _ hreq
      subst hr0
      rfl

theorem analyze_linguistic_no_response (env : Env) (ft st : Option String)
    (hconn : env.connected = true)
    (hresp : ∀ p r, env.respond p = some r → r = "") :
    TranslationService.analyze_linguistic env ft st =
      [("success", .bool false), ("error", .str "No response from Ollama")] := by
  unfold TranslationService.analyze_linguistic
  rw [hconn]
  rw [if_neg (by decide)]
  have hq : PromptingSchemaRegistry.get_or_default "linguistic" = some SchemaId.linguistic := rfl
  simp only [hq]
  split
  · rfl
  · next r hreq =>
      have hr0 := hresp _ _ hreq
      subst hr0
      rfl

theorem translate_with_qwen_success_unconditional (env : Env) (text sn : String)
    (hconn : env.connected = true)
    (hresp : ∀ p, ∃ r, env.respond p = some r ∧ r ≠ "") :
    Dict.getTruthy (TranslationService.translate_with_qwen env text sn) "success" = true := by
  unfold TranslationService.translate_with_qwen
  rw [hconn]
  rw [if_neg (by decide)]
  obtain ⟨sid, hsid⟩ := get_or_default_isSome sn
  simp only [hsid]
  by_cases hdet : sid.name = "detailed"
  · rw [if_pos hdet]
    split
    · next heq =>
        obtain ⟨r, hr, hne⟩ := hresp _
        rw [hr] at heq
        cases heq
    · next r heq =>
        obtain ⟨r', hr', hne'⟩ := hresp _
        rw [hr'] at heq
        injection heq with heq
        subst heq
        rw [if_neg hne']
        rw [Dict.getTruthy_pySet_ne _ _ _ _ (by decide), Dict.getTruthy_pySet_self]
        rfl
  · rw [if_neg hdet]
    split
    · next heq =>
        obtain ⟨r, hr, hne⟩ := hresp _
        rw [hr] at heq
        cases heq
    · next r heq =>
        obtain ⟨r', hr', hne'⟩ := hresp _
        rw [hr'] at heq
        injection heq with heq
        subst heq
        rw [if_neg hne']
        rw [Dict.getTruthy_pySet_ne _ _ _ _ (by decide), Dict.getTruthy_pySet_self]
        rfl

theorem generate_questions_success_unconditional (env : Env) (text : String) (qc : Int)
    (hconn : env.connected = true)
    (hresp : ∀ p, ∃ r, env.respond p = some r ∧ r ≠ "") :
    Dict.getTruthy (TranslationService.generate_questions env text qc) "success" = true := by
  unfold TranslationService.generate_questions
  rw [hconn]
  rw [if_neg (by decide)]
  have hq : PromptingSchemaRegistry.get_or_default "questions" = some SchemaId.questions := rfl
  simp only [hq]
  split
  · next heq =>
      obtain ⟨r, hr, hne⟩ := hresp _
      rw [hr] at heq
      cases heq
  · next r heq =>
      obtain ⟨r', hr', hne'⟩ := hresp _
      rw [hr'] at heq
      injection heq with heq
      subst heq
      rw [if_neg hne']
      rw [Dict.getTruthy_pySet_ne _ _ _ _ (by decide), Dict.getTruthy_pySet_self]
      rfl

theorem analyze_linguistic_parse_failure (env : Env) (ft st : Option String)
    (hconn : env.connected = true)
    (hresp : ∀ p, ∃ r, env.respond p = some r ∧ r ≠ "")
    (hparse : ∀ u, safe_json_parse env u = none) :
    Dict.getTruthy (TranslationService.analyze_linguistic env ft st) "error" = true ∧
    Dict.getStrD (TranslationService.analyze_linguistic env ft st) "error"
      "Linguistic analysis failed" = "Failed to parse JSON response" := by
  unfold TranslationService.analyze_linguistic
  rw [hconn]
  rw [if_neg (by decide)]
  have hq : PromptingSchemaRegistry.get_or_default "linguistic" = some SchemaId.linguistic := rfl
  simp only [hq]
  split
  · next heq =>
      obtain ⟨r, hr, hne⟩ := hresp _
      rw [hr] at heq
      cases heq
  · next r heq =>
      obtain ⟨r', hr', hne'⟩ := hresp _
      rw [hr'] at heq
      injection heq with heq
      subst heq
      rw [if_neg hne']
      unfold SchemaId.parse_response
      rw [hparse]
      exact ⟨rfl, rfl⟩

theorem translate_translation_entry (env : Env) (text sn : String) :
    Dict.get? (TranslationService.translate env text sn) "translation" =
      some (Val.dict (TranslationService.translate_with_qwen env text sn)) := rfl

theorem executeJobBody_translation_parse_failure (env : Env) (job : JobRecord)
    (htype : job.job_type = "translation")
    (hconn : env.connected = true)
    (hresp : ∀ p, ∃ r, env.respond p = some r ∧ r ≠ "") :
    ∃ v, executeJobBody env job = Except.ok v := by
  unfold executeJobBody
  rw [htype]
  rw [if_pos rfl]
  dsimp only
  rw [translate_translation_entry]
  rw [translate_with_qwen_success_unconditional env job.text job.schema_name hconn hresp]
  exact ⟨_, rfl⟩

theorem executeJobBody_questions_parse_failure (env : Env) (job : JobRecord)
    (htype : job.job_type = "questions")
    (hconn : env.connected = true)
    (hresp : ∀ p, ∃ r, env.respond p = some r ∧ r ≠ "") :
    ∃ v, executeJobBody env job = Except.ok v := by
  unfold executeJobBody
  rw [htype]
  rw [if_neg (by decide), if_pos rfl]
  dsimp only
  rw [generate_questions_success_unconditional env job.text job.question_count hconn hresp]
  exact ⟨_, rfl⟩

theorem executeJobBody_linguistic_parse_failure (env : Env) (job : JobRecord)
    (htype : job.job_type = "linguistic")
    (hconn : env.connected = true)
    (hresp : ∀ p, ∃ r, env.respond p = some r ∧ r ≠ "")
    (hparse : ∀ u, safe_json_parse env u = none) :
    executeJobBody env job = Except.error "Failed to parse JSON response" := by
  unfold executeJobBody
  rw [htype]
  rw [if_neg (by decide), if_neg (by decide), if_pos rfl]
  dsimp only
  obtain ⟨herr, hmsg⟩ :=
    analyze_linguistic_parse_failure env job.full_text job.selected_text hconn hresp hparse
  rw [herr]
  rw [if_pos rfl]
  rw [hmsg]

theorem executeJobBody_no_response (env : Env) (job : JobRecord)
    (hkind : job.job_type = "translation" ∨ job.job_type = "questions" ∨
      job.job_type = "linguistic")
    (hresp : ∀ p r, env.respond p = some r → r = "") :
    executeJobBody env job =
      Except.error (if env.connected then "No response from Ollama"
        else "Qwen/Ollama not available") := by
  cases hconn : env.connected with
  | true =>
      rw [if_pos rfl]
      rcases hkind with htype | htype | htype
      · unfold executeJobBody
        rw [htype, if_pos rfl]
        dsimp only
        rw [translate_translation_entry]
        rw [translate_with_qwen_no_response env job.text job.schema_name hconn hresp]
        rfl
      · unfold executeJobBody
        rw [htype, if_neg (by decide), if_pos rfl]
        dsimp only
        rw [generate_questions_no_response env job.text job.question_count hconn hresp]
        rfl
      · unfold executeJobBody
        rw [htype, if_neg (by decide), if_neg (by decide), if_pos rfl]
        dsimp only
        rw [analyze_linguistic_no_response env job.full_text job.selected_text hconn hresp]
        rfl
  | false =>
      rw [if_neg (by simp)]
      rcases hkind with htype | htype | htype
      · unfold executeJobBody
        rw [htype, if_pos rfl]
        dsimp only
        rw [translate_translation_entry]
        rw [translate_with_qwen_not_connected env job.text job.schema_name hconn]
        rfl
      · unfold executeJobBody
        rw [htype, if_neg (by decide), if_pos rfl]
        dsimp only
        rw [generate_questions_not_connected env job.text job.question_count hconn]
        rfl
      · unfold executeJobBody
        rw [htype, if_neg (by decide), if_neg (by decide), if_pos rfl]
        dsimp only
        rw [analyze_linguistic_not_connected env job.full_text job.selected_text hconn]
        rfl

theorem executeJobBody_unknown_kind (env : Env) (job : JobRecord)
    (h1 : job.job_type ≠ "translation") (h2 : job.job_type ≠ "questions")
    (h3 : job.job_type ≠ "linguistic") :
    executeJobBody env job = Except.error ("Unknown job type: " ++ job.job_type) := by
  unfold executeJobBody
  rw [if_neg h1, if_neg h2, if_neg h3]

theorem executeJobBody_questions_result (env : Env) (job : JobRecord) (v : Val)
    (htype : job.job_type = "questions")
    (hok : executeJobBody env job = Except.ok v) :
    ∃ d, v = Val.dict d ∧
      Dict.get? d "question_count" = some (Val.int job.question_count) := by
  unfold executeJobBody at hok
  rw [htype, if_neg (by decide), if_pos rfl] at hok
  dsimp only at hok
  cases hsucc : Dict.getTruthy
      (TranslationService.generate_questions env job.text job.question_count) "success" with
  | false => rw [hsucc] at hok; cases hok
  | true =>
      rw [hsucc] at hok
      simp only [Bool.not_true] at hok
      rw [if_neg (by decide)] at hok
      injection hok with hok
      refine ⟨_, hok.symm, ?_⟩
      rfl

theorem submit_job_jobs_self (s : MgrState) (id : Nat) (text : Option String)
    (job_type : String) (schema_name : Option String) (question_count : Option Int)
    (full_text selected_text : Option String) (now : Int) :
    (AsyncJobManager.submit_job s id text job_type schema_name question_count
      full_text selected_text now).jobs id =
      some (mkJobRecord id text job_type schema_name question_count
        full_text selected_text now) := by
  show (if id = id then _ else s.jobs id) = _
  rw [if_pos rfl]

theorem submit_job_jobs_ne (s : MgrState) (id : Nat) (text : Option String)
    (job_type : String) (schema_name : Option String) (question_count : Option Int)
    (full_text selected_text : Option String) (now : Int) (jid : Nat) (h : jid ≠ id) :
    (AsyncJobManager.submit_job s id text job_type schema_name question_count
      full_text selected_text now).jobs jid = s.jobs jid := by
  show (if jid = id then _ else s.jobs jid) = _
  rw [if_neg h]

theorem pick_job_order (s : MgrState) (id : Nat) (rest : List Nat) (now : Int) :
    (AsyncJobManager.pick_job s id rest now).order = s.order := by
  unfold AsyncJobManager.pick_job
  cases s.jobs id <;> rfl

theorem pick_job_jobs_ne (s : MgrState) (id : Nat) (rest : List Nat) (now : Int)
    (jid : Nat) (h : jid ≠ id) :
    (AsyncJobManager.pick_job s id rest now).jobs jid = s.jobs jid := by
  unfold AsyncJobManager.pick_job
  cases s.jobs id with
  | none => rfl
  | some job =>
      show (if jid = id then _ else s.jobs jid) = _
      rw [if_neg h]

theorem finish_job_order (env : Env) (s : MgrState) (id : Nat) (now : Int) :
    (AsyncJobManager.finish_job env s id now).order = s.order := by
  unfold AsyncJobManager.finish_job
  cases s.jobs id <;> rfl

theorem finish_job_queue (env : Env) (s : MgrState) (id : Nat) (now : Int) :
    (AsyncJobManager.finish_job env s id now).queue = s.queue := by
  unfold AsyncJobManager.finish_job
  cases s.jobs id <;> rfl

theorem finish_job_worker (env : Env) (s : MgrState) (id : Nat) (now : Int) :
    (AsyncJobManager.finish_job env s id now).worker = none := by
  unfold AsyncJobManager.finish_job
  cases s.jobs id <;> rfl

theorem finish_job_jobs_ne (env : Env) (s : MgrState) (id : Nat) (now : Int)
    (jid : Nat) (h : jid ≠ id) :
    (AsyncJobManager.finish_job env s id now).jobs jid = s.jobs jid := by
  unfold AsyncJobManager.finish_job
  cases s.jobs id with
  | none => rfl
  | some job =>
      show (if jid = id then _ else s.jobs jid) = _
      rw [if_neg h]

theorem finish_jobs_self (env : Env) (s : MgrState) (id : Nat) (now : Int)
    (job : JobRecord) (hj : s.jobs id = some job) :
    (AsyncJobManager.finish_job env s id now).jobs id =
      some (commitOutcome env job now) := by
  rw [finish_job_eq env s id now job hj]
  show (if id = id then _ else s.jobs id) = _
  rw [if_pos rfl]

theorem cleanup_jobs_eq (s : MgrState) (max_age now : Int) (jid : Nat) :
    (AsyncJobManager.cleanup_old_jobs s max_age now).jobs jid =
      match s.jobs jid with
      | some j => if shouldSweep j max_age now then none else some j
      | none => none := rfl

theorem commitOutcome_ok (env : Env) (job : JobRecord) (now : Int) (v : Val)
    (h : executeJobBody env job = Except.ok v) :
    commitOutcome env job now =
      { job with
        status := .completed
        result := some v
        progress := "Processing completed"
        completed_at := some now } := by
  unfold commitOutcome
  rw [h]

theorem commitOutcome_error (env : Env) (job : JobRecord) (now : Int) (e : String)
    (h : executeJobBody env job = Except.error e) :
    commitOutcome env job now =
      { job with
        status := .failed
        error := some e
        progress := "Processing failed: " ++ e
        completed_at := some now } := by
  unfold commitOutcome
  rw [h]

theorem step_order_mono {env : Env} {s s' : MgrState} (hstep : Step env s s') :
    ∀ x ∈ s.order, x ∈ s'.order := by
  cases hstep with
  | submit id text job_type schema_name question_count full_text selected_text now hfo hfj =>
      intro x hx
      exact List.mem_append_left _ hx
  | pick id rest now hworker hqueue =>
      intro x hx
      rw [pick_job_order]
      exact hx
  | finish id now hworker =>
      intro x hx
      rw [finish_job_order]
      exact hx
  | sweep max_age now =>
      intro x hx
      exact hx

theorem none_permanent_step {env : Env} {s s' : MgrState} (hstep : Step env s s')
    (jid : Nat) (hmem : jid ∈ s.order) (hnone : s.jobs jid = none) :
    s'.jobs jid = none := by
  cases hstep with
  | submit id text job_type schema_name question_count full_text selected_text now hfo hfj =>
      have hne : jid ≠ id := fun h => hfo (h ▸ hmem)
      rw [submit_job_jobs_ne _ _ _ _ _ _ _ _ _ _ hne]
      exact hnone
  | pick id rest now hworker hqueue =>
      by_cases hid : jid = id
      · subst hid
        unfold AsyncJobManager.pick_job
        rw [hnone]
        exact hnone
      · rw [pick_job_jobs_ne _ _ _ _ _ hid]
        exact hnone
  | finish id now hworker =>
      by_cases hid : jid = id
      · subst hid
        unfold AsyncJobManager.finish_job
        rw [hnone]
        exact hnone
      · rw [finish_job_jobs_ne _ _ _ _ _ hid]
        exact hnone
  | sweep max_age now =>
      rw [cleanup_jobs_eq, hnone]

theorem failed_permanent_step {env : Env} {s s' : MgrState} (hinv : ManagerInv s)
    (hstep : Step env s s') (jid : Nat) (j : JobRecord)
    (hj : s.jobs jid = some j) (hf : j.status = JobStatus.failed) :
    s'.jobs jid = none ∨ ∃ j₂, s'.jobs jid = some j₂ ∧ j₂.status = JobStatus.failed := by
  cases hstep with
  | submit id text job_type schema_name question_count full_text selected_text now hfo hfj =>
      by_cases hid : jid = id
      · subst hid
        rw [hj] at hfj
        cases hfj
      · right
        refine ⟨j, ?_, hf⟩
        rw [submit_job_jobs_ne _ _ _ _ _ _ _ _ _ _ hid]
        exact hj
  | pick id rest now hworker hqueue =>
      by_cases hid : jid = id
      · subst hid
        have hpend : isPendingAt s jid = true := by
          have hmem : jid ∈ s.queue := by
            rw [hqueue]
            exact List.mem_cons_self jid rest
          rw [hinv.queue_spec] at hmem
          exact (List.mem_filter.mp hmem).2
        unfold isPendingAt at hpend
        rw [hj] at hpend
        simp only [decide_eq_true_eq] at hpend
        rw [hf] at hpend
        cases hpend
      · right
        refine ⟨j, ?_, hf⟩
        rw [pick_job_jobs_ne _ _ _ _ _ hid]
        exact hj
  | finish id now hworker =>
      by_cases hid : jid = id
      · subst hid
        obtain ⟨jp, hjp, hproc⟩ := hinv.worker_processing jid hworker
        rw [hj] at hjp
        injection hjp with hjp
        rw [← hjp, hf] at hproc
        cases hproc
      · right
        refine ⟨j, ?_, hf⟩
        rw [finish_job_jobs_ne _ _ _ _ _ hid]
        exact hj
  | sweep max_age now =>
      by_cases hsw : shouldSweep j max_age now
      · left
        rw [cleanup_jobs_eq, hj]
        simp [hsw]
      · right
        refine ⟨j, ?_, hf⟩
        rw [cleanup_jobs_eq, hj]
        simp [hsw]

theorem steps_order_mono {env : Env} {s s' : MgrState}
    (hsteps : Relation.ReflTransGen (Step env) s s') :
    ∀ x ∈ s.order, x ∈ s'.order := by
  induction hsteps with
  | refl => exact fun x hx => hx
  | tail hsteps' hstep ih => exact fun x hx => step_order_mono hstep x (ih x hx)

theorem failed_permanent {env : Env} {s₂ s₃ : MgrState} (hreach : Reachable env s₂)
    (hsteps : Relation.ReflTransGen (Step env) s₂ s₃) (jid : Nat) (j : JobRecord)
    (hj : s₂.jobs jid = some j) (hf : j.status = JobStatus.failed) :
    s₃.jobs jid = none ∨ ∃ j₂, s₃.jobs jid = some j₂ ∧ j₂.status = JobStatus.failed := by
  induction hsteps with
  | refl => exact Or.inr ⟨j, hj, hf⟩
  | tail hsteps' hstep ih =>
      rename_i b c
      have hreachb : Reachable env b := Relation.ReflTransGen.trans hreach hsteps'
      have hmem : jid ∈ b.order :=
        steps_order_mono hsteps' jid ((inv_reachable hreach).jobs_order jid j hj)
      rcases ih with hnone | ⟨j₂, hj₂, hf₂⟩
      · exact Or.inl (none_permanent_step hstep jid hmem hnone)
      · exact failed_permanent_step (inv_reachable hreachb) hstep jid j₂ hj₂ hf₂

/-- Backend whose replies are non-empty but never decodable, even by the
repair pass. -/
def envGarbage : Env :=
  { connected := true
    respond := fun _ => some "garbage"
    clean_thinking := fun t => t
    json_loads := fun _ => none
    repair_json := fun _ => none
    dict_entries := fun _ => Val.list []
    format_dict := fun _ => "" }

/-- Backend that accepts the connection check but never returns a response
(the model invocation client times out and yields `None`). -/
def envSilent : Env :=
  { connected := true
    respond := fun _ => none
    clean_thinking := fun t => t
    json_loads := fun _ => none
    repair_json := fun _ => none
    dict_entries := fun _ => Val.list []
    format_dict := fun _ => "" }

/-- Backend replying "ok" to every prompt, decoded into an empty
questions list. -/
def envOk : Env :=
  { connected := true
    respond := fun _ => some "ok"
    clean_thinking := fun t => t
    json_loads := fun t => if t = "ok" then some [("questions_list", Val.list [])] else none
    repair_json := fun _ => none
    dict_entries := fun _ => Val.list []
    format_dict := fun _ => "" }

/-- Backend replying only to the question-generation prompt that asks for
exactly 5 questions about the text "t"; every other prompt gets no
response.  It distinguishes which effective count execution arrived at. -/
def envCount5 : Env :=
  { connected := true
    respond := fun p =>
      if p = mkPrompt SchemaId.questions.get_system_prompt
          (SchemaId.questions.get_user_payload (Val.str "t") (Val.int 5)) then
        some "ok"
      else none
    clean_thinking := fun t => t
    json_loads := fun t => if t = "ok" then some [("questions_list", Val.list [])] else none
    repair_json := fun _ => none
    dict_entries := fun _ => Val.list []
    format_dict := fun _ => "" }

/-- Two translation jobs run serially under the silent backend. -/
def jobW1 : JobRecord := mkJobRecord 1 (some "a") "translation" none none none none 0

def jobW2 : JobRecord := mkJobRecord 2 (some "b") "translation" none none none none 1

def sW1 : MgrState :=
  AsyncJobManager.submit_job initState 1 (some "a") "translation" none none none none 0

def sW2 : MgrState :=
  AsyncJobManager.submit_job sW1 2 (some "b") "translation" none none none none 1

def sW3 : MgrState := AsyncJobManager.pick_job sW2 1 [2] 2

def sW4 : MgrState := AsyncJobManager.finish_job envSilent sW3 1 3

def sW5 : MgrState := AsyncJobManager.pick_job sW4 2 [] 4

theorem reachable_sW3 : Reachable envSilent sW3 := by
  have h1 : Step envSilent initState sW1 :=
    Step.submit initState 1 (some "a") "translation" none none none none 0 (by decide) rfl
  have h2 : Step envSilent sW1 sW2 :=
    Step.submit sW1 2 (some "b") "translation" none none none none 1 (by decide) rfl
  have h3 : Step envSilent sW2 sW3 := Step.pick sW2 1 [2] 2 rfl rfl
  exact Relation.ReflTransGen.tail
    (Relation.ReflTransGen.tail (Relation.ReflTransGen.single h1) h2) h3

theorem reachable_sW5 : Reachable envSilent sW5 := by
  have h4 : Step envSilent sW3 sW4 := Step.finish sW3 1 3 rfl
  have h5 : Step envSilent sW4 sW5 := Step.pick sW4 2 [] 4 rfl rfl
  exact Relation.ReflTransGen.tail (Relation.ReflTransGen.tail reachable_sW3 h4) h5

/-- C1 (amended): when the model backend returns a non-empty response that
cannot be decoded into the expected structure even after the lenient repair
pass, only a linguistic-analysis job reaches Failed with the parse-error
message.  A translation or question-generation job reaches Succeeded
instead, because `translate_with_qwen` and `generate_questions` set
`success = True` unconditionally after `parse_response`, and `_execute_job`
checks only that flag. -/
theorem C1_parse_failure_amended (env : Env) (s : MgrState) (id : Nat)
    (job : JobRecord) (now : Int)
    (hj : s.jobs id = some job)
    (hconn : env.connected = true)
    (hresp : ∀ p, ∃ r, env.respond p = some r ∧ r ≠ "")
    (hparse : ∀ u, safe_json_parse env u = none) :
    (job.job_type = "linguistic" →
      ∃ j, (AsyncJobManager.finish_job env s id now).jobs id = some j ∧
        j.status = JobStatus.failed ∧ j.error = some "Failed to parse JSON response") ∧
    ((job.job_type = "translation" ∨ job.job_type = "questions") →
      ∃ j, (AsyncJobManager.finish_job env s id now).jobs id = some j ∧
        j.status = JobStatus.completed) := by
  constructor
  · intro htype
    have hexec := executeJobBody_linguistic_parse_failure env job htype hconn hresp hparse
    refine ⟨commitOutcome env job now, finish_jobs_self env s id now job hj, ?_, ?_⟩
    · rw [commitOutcome_error env job now _ hexec]
    · rw [commitOutcome_error env job now _ hexec]
  · intro htype
    have hexec : ∃ v, executeJobBody env job = Except.ok v := by
      rcases htype with ht | ht
      · exact executeJobBody_translation_parse_failure env job ht hconn hresp
      · exact executeJobBody_questions_parse_failure env job ht hconn hresp
    obtain ⟨v, hv⟩ := hexec
    refine ⟨commitOutcome env job now, finish_jobs_self env s id now job hj, ?_⟩
    rw [commitOutcome_ok env job now v hv]

/-- Linguistic job submitted and picked under the garbage backend. -/
def sL1 : MgrState :=
  AsyncJobManager.submit_job initState 1 none "linguistic" none none
    (some "全文") (some "选文") 0

def sL2 : MgrState := AsyncJobManager.pick_job sL1 1 [] 1

theorem envGarbage_respond (p : String) :
    ∃ r, envGarbage.respond p = some r ∧ r ≠ "" :=
  ⟨"garbage", rfl, by decide⟩

theorem envGarbage_parse (u : String) : safe_json_parse envGarbage u = none := by
  unfold safe_json_parse
  split <;> rfl

theorem C1_parse_failure_amended_witness :
    ∃ j, (AsyncJobManager.finish_job envGarbage sL2 1 2).jobs 1 = some j ∧
      j.status = JobStatus.failed ∧ j.error = some "Failed to parse JSON response" :=
  (C1_parse_failure_amended envGarbage sL2 1
    (markProcessing (mkJobRecord 1 none "linguistic" none none
      (some "全文") (some "选文") 0) 1) 2
    rfl rfl envGarbage_respond envGarbage_parse).1 rfl

/-- Translation job submitted and picked under the garbage backend. -/
def sT1 : MgrState :=
  AsyncJobManager.submit_job initState 1 (some "你好") "translation"
    (some "translate") none none none 0

def sT2 : MgrState := AsyncJobManager.pick_job sT1 1 [] 1

def sT3 : MgrState := AsyncJobManager.finish_job envGarbage sT2 1 2

/-- C1 (counterexample): a translation job whose backend reply "garbage" is
non-empty and not decodable (`safe_json_parse` fails) finishes in Succeeded
with no error recorded — the claim as stated predicts Failed. -/
theorem C1_counterexample :
    envGarbage.respond "any-prompt" = some "garbage" ∧
    safe_json_parse envGarbage "garbage" = none ∧
    (sT3.jobs 1).map JobRecord.status = some JobStatus.completed ∧
    (sT3.jobs 1).map JobRecord.error = some none := by
  exact ⟨rfl, rfl, rfl, rfl⟩

/-- C2: serial FIFO ordering.  In every reachable state, if job `b` was
submitted after job `a` (it appears later in the submission order) and `b`
has left the Queued state, then `a` has already reached a terminal
state — no job starts before every earlier submission finished. -/
theorem C2_serial_fifo (env : Env) (s : MgrState) (h : Reachable env s)
    (a b : Nat) (l₁ l₂ l₃ : List Nat)
    (horder : s.order = l₁ ++ a :: l₂ ++ b :: l₃)
    (jb : JobRecord) (hb : s.jobs b = some jb) (hbs : jb.status ≠ JobStatus.pending)
    (ja : JobRecord) (ha : s.jobs a = some ja) :
    ja.status = JobStatus.completed ∨ ja.status = JobStatus.failed := by
  have hser := (inv_reachable h).serial
  rw [horder, List.pairwise_append] at hser
  obtain ⟨_, _, hcross⟩ := hser
  have hab := hcross a (List.mem_append_right l₁ (List.mem_cons_self a l₂)) b
    (List.mem_cons_self b l₃)
  have hstarted : startedAt s b := by
    unfold startedAt
    rw [hb]
    exact hbs
  have hdone := hab hstarted
  unfold doneAt at hdone
  rw [ha] at hdone
  exact hdone

theorem C2_serial_fifo_witness :
    (commitOutcome envSilent (markProcessing jobW1 2) 3).status = JobStatus.completed ∨
    (commitOutcome envSilent (markProcessing jobW1 2) 3).status = JobStatus.failed :=
  C2_serial_fifo envSilent sW5 reachable_sW5 1 2 [] [] [] rfl
    (markProcessing jobW2 4) rfl (by decide)
    (commitOutcome envSilent (markProcessing jobW1 2) 3) rfl

/-- C3: in every reachable state, `result` is populated exactly on
Succeeded records, `error` exactly on Failed records, and never both. -/
theorem C3_result_error_discipline (env : Env) (s : MgrState) (h : Reachable env s)
    (id : Nat) (j : JobRecord) (hj : s.jobs id = some j) :
    (j.result.isSome ↔ j.status = JobStatus.completed) ∧
    (j.error.isSome ↔ j.status = JobStatus.failed) ∧
    ¬(j.result.isSome ∧ j.error.isSome) := by
  have hinv := inv_reachable h
  cases hst : j.status with
  | pending =>
      obtain ⟨_, _, hr, he⟩ := hinv.pending_shape id j hj hst
      rw [hr, he]
      simp
  | processing =>
      obtain ⟨_, hr, he⟩ := hinv.processing_shape id j hj hst
      rw [hr, he]
      simp
  | completed =>
      obtain ⟨hr, he, _⟩ := hinv.completed_shape id j hj hst
      rw [he]
      simp [hr]
  | failed =>
      obtain ⟨he, hr, _⟩ := hinv.failed_shape id j hj hst
      rw [hr]
      simp [he]

theorem C3_result_error_discipline_witness :
    ((commitOutcome envSilent (markProcessing jobW1 2) 3).result.isSome ↔
      (commitOutcome envSilent (markProcessing jobW1 2) 3).status = JobStatus.completed) ∧
    ((commitOutcome envSilent (markProcessing jobW1 2) 3).error.isSome ↔
      (commitOutcome envSilent (markProcessing jobW1 2) 3).status = JobStatus.failed) ∧
    ¬((commitOutcome envSilent (markProcessing jobW1 2) 3).result.isSome ∧
      (commitOutcome envSilent (markProcessing jobW1 2) 3).error.isSome) :=
  C3_result_error_discipline envSilent sW5 reachable_sW5 1
    (commitOutcome envSilent (markProcessing jobW1 2) 3) rfl

/-- C4: whenever the body of `_execute_job` raises (`executeJobBody` yields
an error), the exception is caught at the job boundary: the record becomes
Failed carrying the exception's message, the worker is released, and the
worker loop can immediately pick the next queued job. -/
theorem C4_exception_caught_worker_continues (env : Env) (s : MgrState) (id : Nat)
    (job : JobRecord) (msg : String) (now : Int)
    (hworker : s.worker = some id) (hj : s.jobs id = some job)
    (hexec : executeJobBody env job = Except.error msg) :
    (∃ j, (AsyncJobManager.finish_job env s id now).jobs id = some j ∧
      j.status = JobStatus.failed ∧ j.error = some msg ∧
      j.progress = "Processing failed: " ++ msg ∧ j.completed_at = some now) ∧
    (AsyncJobManager.finish_job env s id now).worker = none ∧
    (∀ nid rest t, (AsyncJobManager.finish_job env s id now).queue = nid :: rest →
      Step env (AsyncJobManager.finish_job env s id now)
        (AsyncJobManager.pick_job (AsyncJobManager.finish_job env s id now) nid rest t)) := by
  refine ⟨⟨commitOutcome env job now, finish_jobs_self env s id now job hj,
    ?_, ?_, ?_, ?_⟩, finish_job_worker env s id now, ?_⟩
  · rw [commitOutcome_error env job now msg hexec]
  · rw [commitOutcome_error env job now msg hexec]
  · rw [commitOutcome_error env job now msg hexec]
  · rw [commitOutcome_error env job now msg hexec]
  · intro nid rest t hq
    exact Step.pick _ nid rest t (finish_job_worker env s id now) hq

theorem C4_exception_caught_worker_continues_witness :
    ∃ j, (AsyncJobManager.finish_job envSilent sW3 1 3).jobs 1 = some j ∧
      j.status = JobStatus.failed ∧ j.error = some "No response from Ollama" ∧
      j.progress = "Processing failed: " ++ "No response from Ollama" ∧
      j.completed_at = some 3 :=
  (C4_exception_caught_worker_continues envSilent sW3 1 (markProcessing jobW1 2)
    "No response from Ollama" 3 rfl rfl rfl).1

/-- C5: a sweep with threshold `max_age` deletes exactly the terminal
records whose completion stamp is strictly older than `max_age`; terminal
records always carry such a stamp in reachable states; Queued and Running
records are retained unchanged regardless of age. -/
theorem C5_sweep_terminal_only (env : Env) (s : MgrState) (h : Reachable env s)
    (max_age now : Int) (id : Nat) (j : JobRecord) (hj : s.jobs id = some j) :
    ((j.status = JobStatus.completed ∨ j.status = JobStatus.failed) →
      ∀ c, j.completed_at = some c → now - c > max_age →
        (AsyncJobManager.cleanup_old_jobs s max_age now).jobs id = none) ∧
    ((j.status = JobStatus.completed ∨ j.status = JobStatus.failed) →
      ∃ c, j.completed_at = some c) ∧
    ((j.status = JobStatus.pending ∨ j.status = JobStatus.processing) →
      (AsyncJobManager.cleanup_old_jobs s max_age now).jobs id = some j) := by
  refine ⟨?_, ?_, ?_⟩
  · intro hterm c hc hage
    rw [cleanup_jobs_eq, hj]
    have hsw : shouldSweep j max_age now = true := by
      unfold shouldSweep
      rw [hc]
      rcases hterm with ht | ht <;> rw [ht, Bool.and_eq_true] <;>
        exact ⟨rfl, decide_eq_true hage⟩
    simp [hsw]
  · intro hterm
    rcases hterm with ht | ht
    · obtain ⟨_, _, hc⟩ := (inv_reachable h).completed_shape id j hj ht
      exact Option.isSome_iff_exists.mp hc
    · obtain ⟨_, _, hc⟩ := (inv_reachable h).failed_shape id j hj ht
      exact Option.isSome_iff_exists.mp hc
  · intro hnt
    rw [cleanup_jobs_eq, hj]
    simp [shouldSweep_of_terminal_eq_false hnt]

theorem C5_sweep_terminal_only_witness :
    (AsyncJobManager.cleanup_old_jobs sW5 0 10).jobs 1 = none ∧
    (AsyncJobManager.cleanup_old_jobs sW5 0 10).jobs 2 =
      some (markProcessing jobW2 4) := by
  constructor
  · exact (C5_sweep_terminal_only envSilent sW5 reachable_sW5 0 10 1
      (commitOutcome envSilent (markProcessing jobW1 2) 3) rfl).1 (Or.inr rfl) 3 rfl (by decide)
  · exact (C5_sweep_terminal_only envSilent sW5 reachable_sW5 0 10 2
      (markProcessing jobW2 4) rfl).2.2 (Or.inr rfl)

/-- C6 (amended): the count a question-generation job stores at submission
is the Python `or`-default of the submitted value (`question_count or 5`,
so `0` and absent become `5`), and execution is identical to execution with
that stored count clamped into `[1, 20]`; in particular a submission with
`question_count = 999` executes exactly like one with effective count 20. -/
theorem C6_effective_count_amended :
    (∀ id text sn c ft st now,
      (mkJobRecord id text "questions" sn c ft st now).question_count = pyOrInt c 5) ∧
    (∀ (env : Env) (text : String) (qc : Int),
      TranslationService.generate_questions env text qc =
        TranslationService.generate_questions env text (max 1 (min qc 20))) ∧
    (∀ (env : Env) (text : String),
      TranslationService.generate_questions env text (pyOrInt (some 999) 5) =
        TranslationService.generate_questions env text 20) := by
  have hclamped : ∀ (env : Env) (text : String) (qc : Int),
      TranslationService.generate_questions env text qc =
        TranslationService.generate_questions env text (max 1 (min qc 20)) := by
    intro env text qc
    unfold TranslationService.generate_questions
    cases hc : env.connected with
    | false => rfl
    | true =>
        rw [if_neg (by decide), if_neg (by decide)]
        have hclamp : max 1 (min (max 1 (min qc 20)) 20) = max 1 (min qc 20) := by
          omega
        rw [hclamp]
  refine ⟨fun id text sn c ft st now => rfl, hclamped, ?_⟩
  intro env text
  have h999 : pyOrInt (some 999) 5 = 999 := rfl
  rw [h999, hclamped env text 999]
  have h20 : max 1 (min (999 : Int) 20) = 20 := by decide
  rw [h20]

/-- Question-generation job submitted with `question_count = 0` under the
backend that answers only the effective-count-5 prompt. -/
def sQ1 : MgrState :=
  AsyncJobManager.submit_job initState 1 (some "t") "questions" none (some 0)
    none none 0

def sQ2 : MgrState := AsyncJobManager.pick_job sQ1 1 [] 1

def sQ3 : MgrState := AsyncJobManager.finish_job envCount5 sQ2 1 2

/-- C6 (counterexample): the claim predicts that a submission with
`question_count = 0` executes with effective count `max 1 (min 0 20) = 1`.
In fact the job record stores `0 or 5 = 5`, execution asks the model for 5
questions and — under a backend that only answers the count-5 prompt —
succeeds, while execution with the claimed effective count 1 gets no
response at all.  The effective count is therefore 5, not 1. -/
theorem C6_counterexample :
    (sQ1.jobs 1).map JobRecord.question_count = some 5 ∧
    (sQ3.jobs 1).map JobRecord.status = some JobStatus.completed ∧
    TranslationService.generate_questions envCount5 "t" (max 1 (min 0 20)) =
      [("success", Val.bool false), ("error", Val.str "No response from Ollama")] := by
  exact ⟨rfl, rfl, rfl⟩

/-- C7: a model invocation that yields an empty or absent response leaves
the job Failed with the connectivity error message ("No response from
Ollama", or "Qwen/Ollama not available" when even the connection check
fails), and no automatic retry ever occurs: along any further steps of the
manager a Failed record either stays Failed or is deleted by the sweeper,
never re-executed. -/
theorem C7_no_response_failed (env : Env) (s : MgrState) (id : Nat)
    (job : JobRecord) (now : Int)
    (hj : s.jobs id = some job)
    (hkind : job.job_type = "translation" ∨ job.job_type = "questions" ∨
      job.job_type = "linguistic")
    (hresp : ∀ p r, env.respond p = some r → r = "") :
    (∃ j, (AsyncJobManager.finish_job env s id now).jobs id = some j ∧
      j.status = JobStatus.failed ∧
      j.error = some (if env.connected then "No response from Ollama"
        else "Qwen/Ollama not available")) ∧
    (∀ s₂ s₃ jid j₂, Reachable env s₂ → Relation.ReflTransGen (Step env) s₂ s₃ →
      s₂.jobs jid = some j₂ → j₂.status = JobStatus.failed →
      s₃.jobs jid = none ∨ ∃ j₃, s₃.jobs jid = some j₃ ∧ j₃.status = JobStatus.failed) := by
  constructor
  · have hexec := executeJobBody_no_response env job hkind hresp
    refine ⟨commitOutcome env job now, finish_jobs_self env s id now job hj, ?_, ?_⟩
    · rw [commitOutcome_error env job now _ hexec]
    · rw [commitOutcome_error env job now _ hexec]
  · intro s₂ s₃ jid j₂ hreach hsteps hj₂ hf₂
    exact failed_permanent hreach hsteps jid j₂ hj₂ hf₂

theorem C7_no_response_failed_witness :
    ∃ j, (AsyncJobManager.finish_job envSilent sW3 1 3).jobs 1 = some j ∧
      j.status = JobStatus.failed ∧
      j.error = some (if envSilent.connected then "No response from Ollama"
        else "Qwen/Ollama not available") :=
  (C7_no_response_failed envSilent sW3 1 (markProcessing jobW1 2) 3 rfl
    (Or.inl rfl) (fun p r h => Option.noConfusion h)).1

/-- C8: a job whose kind is none of the known work types ends Failed with a
descriptive error naming the unknown kind; the execution call is total (it
returns the error instead of crashing), the worker is released and can pick
the next queued job. -/
theorem C8_unknown_kind_failed (env : Env) (s : MgrState) (id : Nat)
    (job : JobRecord) (now : Int)
    (hj : s.jobs id = some job)
    (h1 : job.job_type ≠ "translation") (h2 : job.job_type ≠ "questions")
    (h3 : job.job_type ≠ "linguistic") :
    executeJobBody env job = Except.error ("Unknown job type: " ++ job.job_type) ∧
    (∃ j, (AsyncJobManager.finish_job env s id now).jobs id = some j ∧
      j.status = JobStatus.failed ∧
      j.error = some ("Unknown job type: " ++ job.job_type)) ∧
    (AsyncJobManager.finish_job env s id now).worker = none ∧
    (∀ nid rest t, (AsyncJobManager.finish_job env s id now).queue = nid :: rest →
      Step env (AsyncJobManager.finish_job env s id now)
        (AsyncJobManager.pick_job (AsyncJobManager.finish_job env s id now) nid rest t)) := by
  have hexec := executeJobBody_unknown_kind env job h1 h2 h3
  refine ⟨hexec, ⟨commitOutcome env job now, finish_jobs_self env s id now job hj,
    ?_, ?_⟩, finish_job_worker env s id now, ?_⟩
  · rw [commitOutcome_error env job now _ hexec]
  · rw [commitOutcome_error env job now _ hexec]
  · intro nid rest t hq
    exact Step.pick _ nid rest t (finish_job_worker env s id now) hq

/-- Job submitted with the unknown kind "bogus" and picked by the worker. -/
def sB1 : MgrState :=
  AsyncJobManager.submit_job initState 1 (some "x") "bogus" none none none none 0

def sB2 : MgrState := AsyncJobManager.pick_job sB1 1 [] 1

theorem C8_unknown_kind_failed_witness :
    ∃ j, (AsyncJobManager.finish_job envSilent sB2 1 2).jobs 1 = some j ∧
      j.status = JobStatus.failed ∧
      j.error = some ("Unknown job type: " ++
        (markProcessing (mkJobRecord 1 (some "x") "bogus" none none none none 0) 1).job_type) :=
  (C8_unknown_kind_failed envSilent sB2 1
    (markProcessing (mkJobRecord 1 (some "x") "bogus" none none none none 0) 1) 2
    rfl (by decide) (by decide) (by decide)).2.1

/-- C9 (amended): the `question_count` stored in a completed
question-generation job's result equals the job record's count — the
submitted value after the Python `or`-default (`question_count or 5`, so
`0`/absent become `5`) and before clamping — not the clamped effective
count used during execution. -/
theorem C9_result_count_amended (env : Env) (job : JobRecord) (v : Val)
    (htype : job.job_type = "questions")
    (hok : executeJobBody env job = Except.ok v) :
    ∃ d, v = Val.dict d ∧
      Dict.get? d "question_count" = some (Val.int job.question_count) :=
  executeJobBody_questions_result env job v htype hok

theorem C9_result_count_amended_witness :
    ∃ d, Val.dict
        [("input_text", Val.str "t"), ("question_count", Val.int 999),
         ("questions", Val.list [])] = Val.dict d ∧
      Dict.get? d "question_count" = some (Val.int 999) :=
  C9_result_count_amended envOk
    (markProcessing (mkJobRecord 1 (some "t") "questions" none (some 999)
      none none 0) 1) _ rfl rfl

/-- C9 (counterexample): a job submitted with `question_count = 0` completes
with `question_count = 5` in its result (the `or`-default applied at
submission), not the originally submitted pre-clamp count 0. -/
theorem C9_counterexample :
    (sQ3.jobs 1).map JobRecord.result =
      some (some (Val.dict
        [("input_text", Val.str "t"), ("question_count", Val.int 5),
         ("questions", Val.list [])])) ∧
    Val.int 5 ≠ Val.int 0 := by
  refine ⟨rfl, ?_⟩
  intro h
  cases h

/-- C10: an unknown `schema_name` never causes a submission failure or a
Failed job on its own.  The registry lookup falls back to the default
"translate" schema, submission accepts any name and creates a Queued
record, and executing a translation job with the unknown name behaves
exactly like executing it with `schema_name = "translate"`. -/
theorem C10_unknown_schema_fallback (name : String)
    (hunk : PromptingSchemaRegistry.get name = none) :
    PromptingSchemaRegistry.get_or_default name = some SchemaId.translate ∧
    (∀ (env : Env) (text : String),
      TranslationService.translate_with_qwen env text name =
        TranslationService.translate_with_qwen env text "translate") ∧
    (∀ (env : Env) (job : JobRecord), job.job_type = "translation" →
      job.schema_name = name →
      executeJobBody env job = executeJobBody env { job with schema_name := "translate" }) ∧
    (∀ (s : MgrState) (id : Nat) (text : String) qc ft st (now : Int),
      ∃ j, (AsyncJobManager.submit_job s id (some text) "translation" (some name)
        qc ft st now).jobs id = some j ∧ j.status = JobStatus.pending) := by
  have htwq : ∀ (env : Env) (text : String),
      TranslationService.translate_with_qwen env text name =
        TranslationService.translate_with_qwen env text "translate" := by
    intro env text
    unfold TranslationService.translate_with_qwen
    rw [get_or_default_unregistered name hunk]
    rfl
  refine ⟨get_or_default_unregistered name hunk, htwq, ?_, ?_⟩
  · intro env job htype hsn
    unfold executeJobBody
    have hT : ({ job with schema_name := "translate" } : JobRecord).job_type =
        job.job_type := rfl
    have hTs : ({ job with schema_name := "translate" } : JobRecord).schema_name =
        "translate" := rfl
    have hTt : ({ job with schema_name := "translate" } : JobRecord).text = job.text := rfl
    rw [hT, hTs, hTt, htype, if_pos rfl, if_pos rfl]
    dsimp only
    rw [translate_translation_entry, translate_translation_entry]
    rw [hsn, htwq env job.text]
    have hmodel : ∀ sn, Dict.getStrD (TranslationService.translate env job.text sn)
        "model" "unknown" = "qwen" := fun sn => rfl
    rw [hmodel, hmodel]
  · intro s id text qc ft st now
    exact ⟨mkJobRecord id (some text) "translation" (some name) qc ft st now,
      submit_job_jobs_self s id (some text) "translation" (some name) qc ft st now, rfl⟩

theorem C10_unknown_schema_fallback_witness :
    PromptingSchemaRegistry.get_or_default "no-such-schema" = some SchemaId.translate :=
  (C10_unknown_schema_fallback "no-such-schema" rfl).1
